import Mathlib

/-!
Verification development for the remediation / evidence-processing layer of
the rca-agent service (`src/rca-agent/src`).  The Python source is shallowly
embedded: JSON-like dictionaries become the inductive type `JVal`, in-place
mutation becomes explicit state passing (a function returns the new document
together with the exception it would have raised, so that mutations performed
before a raise remain visible), and machine floats are modelled as exact
rationals.
-/

set_option maxRecDepth 8000

namespace RCA

/-- JSON-like values, modelling the Python dict/list/str/number/bool/None
universe the service manipulates.  Numbers are modelled as exact rationals. -/
inductive JVal where
  | str (s : String)
  | num (q : ℚ)
  | bool (b : Bool)
  | null
  | obj (fields : List (String × JVal))
  | arr (items : List JVal)
  deriving Repr

abbrev JObj := List (String × JVal)

/-- `d.get(k)` on a Python dict (insertion-ordered association list). -/
def getObj (o : JObj) (k : String) : Option JVal :=
  (o.find? (fun p => p.1 = k)).map (·.2)

/-- `d[k] = v` on a Python dict: replace in place if the key is present,
otherwise append at the end (insertion order preserved). -/
def setObj (o : JObj) (k : String) (v : JVal) : JObj :=
  match o with
  | [] => [(k, v)]
  | (k', v') :: rest =>
      if k' = k then (k', v) :: rest else (k', v') :: setObj rest k v

/-- Python `x == s` for a string literal `s`: true only when `x` is that
string (comparing a dict/list/number to a string is `False`, not an error). -/
def JVal.isStrEq : JVal → String → Bool
  | .str s, v => s = v
  | _, _ => false

/-- Errors `apply_change` can raise (modelling Python exceptions). -/
inductive PatchErr where
  /-- `AttributeError`/`TypeError` from operating on a non-dict/non-list. -/
  | shapeError
  /-- the `ValueError` "Array selector ... cannot be the final segment". -/
  | selectorTerminal (arrayField matchKey matchVal : String)
  deriving DecidableEq, Repr

/-- A parsed field-path segment: plain key or `word[word=value]` selector. -/
inductive Seg where
  | key (s : String)
  | sel (arrayField matchKey matchVal : String)
  deriving DecidableEq, Repr

/-- Scan an array for the first entry `item` with `item.get(k) == v`,
in order, as the generator expression in `apply_change` does.  Python raises
`AttributeError` at the first non-dict item reached before a match; we
return `.error` there.  On success we return the index and the entry's
fields. -/
def findMatch (a : List JVal) (k v : String) : Except PatchErr (Option (Nat × JObj)) :=
  match a with
  | [] => .ok none
  | .obj o :: rest =>
      if (getObj o k).any (fun x => x.isStrEq v) then .ok (some (0, o))
      else (findMatch rest k v).map (fun r => r.map (fun p => (p.1 + 1, p.2)))
  | _ :: _ => .error .shapeError

/-- One alternate-key attempt of the fallback scan of `apply_change`:
retry the match against an alternate identifier field, skipping the one
equal to `matchKey`.  Only reached after `findMatch` returned `.ok none`,
so every item is known to be a dict and the scan cannot raise. -/
def tryAltKey (a : List JVal) (matchKey v alt : String) : Option (Nat × JObj) :=
  if alt = matchKey then none
  else
    match findMatch a alt v with
    | .ok r => r
    | .error _ => none

/-- The two-step fallback itself: `"key"` first, then `"name"`. -/
def findFallback (a : List JVal) (matchKey v : String) : Option (Nat × JObj) :=
  (tryAltKey a matchKey v "key").orElse (fun _ => tryAltKey a matchKey v "name")

/-- `arr = current.setdefault(array_field, [])`: yields the (possibly
updated) document and the list found or created under `f`, or `none` when an
existing non-list value sits there (the subsequent iteration/append then
raises without further mutation). -/
def selSetup (cur : JObj) (f : String) : Option (JObj × List JVal) :=
  match getObj cur f with
  | some (.arr a) => some (cur, a)
  | some _ => none
  | none => some (setObj cur f (.arr []), [])

/-- `apply_change(override, segments, value)` (src/agent/patch.py:68-102),
embedded functionally: the returned `JObj` is the state of the (in Python,
in-place mutated) document after the call, and the `Option PatchErr` is the
exception the call raised, if any — mutations performed before a raise are
kept, exactly as in Python. -/
def applyChange (cur : JObj) (segments : List Seg) (value : String) :
    JObj × Option PatchErr :=
  match segments with
  | [] => (cur, none)
  | .key s :: rest =>
      if rest.isEmpty then (setObj cur s (.str value), none)
      else
        match getObj cur s with
        | some (.obj child) =>
            let r := applyChange child rest value
            (setObj cur s (.obj r.1), r.2)
        | some _ =>
            -- `setdefault` returned an existing non-dict; the next loop
            -- iteration raises before mutating anything further.
            (cur, some .shapeError)
        | none =>
            let r := applyChange [] rest value
            (setObj cur s (.obj r.1), r.2)
  | .sel f k v :: rest =>
      match selSetup cur f with
      | none => (cur, some .shapeError)
      | some (cur1, a) =>
          match findMatch a k v with
          | .error e => (cur1, some e)
          | .ok (some (i, entry)) =>
              if rest.isEmpty then (cur1, some (.selectorTerminal f k v))
              else
                let r := applyChange entry rest value
                (setObj cur1 f (.arr (a.set i (.obj r.1))), r.2)
          | .ok none =>
              match findFallback a k v with
              | some (i, entry) =>
                  if rest.isEmpty then (cur1, some (.selectorTerminal f k v))
                  else
                    let r := applyChange entry rest value
                    (setObj cur1 f (.arr (a.set i (.obj r.1))), r.2)
              | none =>
                  -- no match anywhere: append `{matchKey: matchValue}`
                  -- FIRST, then (if terminal) raise — the append is kept.
                  if rest.isEmpty then
                    (setObj cur1 f (.arr (a ++ [.obj [(k, .str v)]])),
                      some (.selectorTerminal f k v))
                  else
                    let r := applyChange [(k, .str v)] rest value
                    (setObj cur1 f (.arr (a ++ [.obj r.1])), r.2)

/-- Remediation-input parsing failures (`ValueError`s in src/agent/patch.py). -/
inductive ParseFail where
  /-- "Invalid resource reference: ... Expected 'Kind name'." -/
  | malformedReference (resource : String)
  /-- "Invalid field_path: ... Expected 'spec.<overrideCategory>.<path...>'." -/
  | malformedFieldPath (path : String)
  /-- "Unsupported override category: ..." -/
  | unsupportedCategory (category : String)
  deriving DecidableEq, Repr

/-- ASCII whitespace recognised by Python's default `strip`/`split`. -/
def isPySpace (c : Char) : Bool :=
  c = ' ' || c = '\t' || c = '\n' || c = '\r' || c = '\x0b' || c = '\x0c'

/-- Python `str.strip()` (ASCII whitespace). -/
def pyStrip (s : String) : String :=
  (((s.toList.dropWhile isPySpace).reverse.dropWhile isPySpace).reverse).asString

/-- `parse_resource_ref(resource)` (src/agent/patch.py:36-40):
`resource.strip().split(None, 1)` must give exactly two tokens, the kind and
the (rest-of-string) name. -/
def parseResourceRef (resource : String) : Except ParseFail (String × String) :=
  let t := (pyStrip resource).toList
  let w1 := t.takeWhile (fun c => !isPySpace c)
  let rest := (t.drop w1.length).dropWhile isPySpace
  if w1 = [] || rest = [] then .error (.malformedReference resource)
  else .ok (w1.asString, rest.asString)

/-- `OVERRIDE_PARAM_MAP` (src/agent/patch.py:22-26): camelCase override field
names to snake_case MCP parameter names, in source order. -/
def overrideParamMap : List (String × String) :=
  [("workloadOverrides", "workload_overrides"),
   ("componentTypeEnvOverrides", "component_type_env_overrides"),
   ("traitOverrides", "trait_overrides")]

/-- A `\w` word character.  Python's `re` is Unicode-aware; the source only
ever feeds ASCII field paths, and we model the ASCII range `[A-Za-z0-9_]`. -/
def isWordChar (c : Char) : Bool := c.isAlphanum || c = '_'

/-- Full match of `_ARRAY_SELECTOR_RE = ^(\w+)\[(\w+)=([^\]]+)\]$`
(src/agent/patch.py:29).  All three groups are forced by the following
literal character, so greedy matching is deterministic.  Python's `$` would
also accept one trailing newline; the model reads it as end-of-input, the
only shape the splitter ever produces here. -/
def matchArraySelector (s : String) : Option (String × String × String) :=
  let l := s.toList
  let w1 := l.takeWhile isWordChar
  match w1, l.drop w1.length with
  | [], _ => none
  | _, '[' :: r2 =>
      let w2 := r2.takeWhile isWordChar
      match w2, r2.drop w2.length with
      | [], _ => none
      | _, '=' :: r4 =>
          let v := r4.takeWhile (fun c => c ≠ ']')
          match v, r4.drop v.length with
          | [], _ => none
          | _, [']'] => some (w1.asString, w2.asString, v.asString)
          | _, _ => none
      | _, _ => none
  | _, _ => none

/-- A path token after the category becomes an `ArraySelector` when the
selector regex matches, a plain `Key` otherwise (src/agent/patch.py:58-63). -/
def tokenToSeg (seg : String) : Seg :=
  match matchArraySelector seg with
  | some (a, k, v) => .sel a k v
  | none => .key seg

/-- `s.split(c)` for a one-character separator, as Python's `str.split`:
always at least one (possibly empty) piece. -/
def splitOnChar (sep : Char) : List Char → List (List Char)
  | [] => [[]]
  | c :: rest =>
      let r := splitOnChar sep rest
      if c = sep then [] :: r
      else
        match r with
        | h :: t => (c :: h) :: t
        | [] => [[c]]

/-- `parse_field_path(field_path)` (src/agent/patch.py:43-65): split on `.`;
require at least 3 tokens, the first literally `spec`; the second must be a
known override category; remaining tokens become segments via `tokenToSeg`. -/
def parseFieldPath (fieldPath : String) : Except ParseFail (String × List Seg) :=
  let segments := (splitOnChar '.' fieldPath.toList).map List.asString
  if segments.length < 3 ∨ segments.head? ≠ some "spec" then
    .error (.malformedFieldPath fieldPath)
  else
    let overrideKey := (segments.drop 1).headD ""
    if (overrideParamMap.find? (fun p => p.1 = overrideKey)).isNone then
      .error (.unsupportedCategory overrideKey)
    else
      .ok (overrideKey, (segments.drop 2).map tokenToSeg)

/-! ## SpanTreeBuilder (src/agent/middleware/output_transformer.py:251-291) -/

/-- A span as read by `_build_span_tree`: the four dict fields the builder and
the traces processor consume.  `parentSpanId = none` models a missing key. -/
structure Span where
  spanId : String
  parentSpanId : Option String
  startTime : ℚ
  durationNanoseconds : ℚ
  deriving DecidableEq, Repr

/-- Stable insertion of `x` before the first element not below it.  Folding
this over a list models Python's stable `list.sort(key=...)`. -/
def stableInsert (le : α → α → Bool) (x : α) : List α → List α
  | [] => [x]
  | y :: ys => if le x y then x :: y :: ys else y :: stableInsert le x ys

/-- Stable sort (models Python `list.sort` / Timsort, which is stable). -/
def stableSort (le : α → α → Bool) (l : List α) : List α :=
  l.foldr (stableInsert le) []

/-- Ascending comparison on `startTime` (`key=lambda s: s.get("startTime")`). -/
def startTimeLe (a b : Span) : Bool := a.startTime ≤ b.startTime

/-- `span_map[id]`: the dict comprehension keyed on `spanId` lets a later
duplicate overwrite an earlier one, so look up the last occurrence. -/
def spanMapLookup (spans : List Span) (id : String) : Option Span :=
  (spans.filter (fun s => s.spanId = id)).getLast?

/-- `parent_id in span_map`. -/
def spanMapContains (spans : List Span) (id : String) : Bool :=
  spans.any (fun s => s.spanId = id)

/-- `if not parent_id or parent_id not in span_map`: missing or empty parent
id (both falsy), or a parent absent from this trace, makes a root. -/
def isRootSpan (spans : List Span) (s : Span) : Bool :=
  match s.parentSpanId with
  | none => true
  | some p => p = "" || !spanMapContains spans p

/-- `add_span_and_children`: emit the span (with its depth), then recurse
into its children — the spans whose `parentSpanId` matches, sorted by
`startTime` (stable).  The source recursion has no cycle guard (spec §4.5);
we supply fuel, and `spans.length` fuel suffices for acyclic input since
each level of an ancestor chain consumes a distinct span. -/
def addSpanAndChildren (spans : List Span) : Nat → String → Nat → List (Span × Nat)
  | 0, _, _ => []
  | fuel + 1, spanId, depth =>
      match spanMapLookup spans spanId with
      | none => []
      | some s =>
          let children := stableSort startTimeLe
            (spans.filter (fun c => c.parentSpanId = some spanId))
          (s, depth) ::
            (children.map (fun c => addSpanAndChildren spans fuel c.spanId (depth + 1))).flatten

/-- `_build_span_tree(spans)`: ordered root spans, each followed pre-order by
its depth-annotated descendants. -/
def buildSpanTree (spans : List Span) : List (Span × Nat) :=
  if spans.isEmpty then []
  else
    let rootIds := (spans.filter (isRootSpan spans)).map (·.spanId)
    let rootObjs := stableSort startTimeLe (rootIds.filterMap (spanMapLookup spans))
    (rootObjs.map (fun r => addSpanAndChildren spans spans.length r.spanId 0)).flatten

/-! ## MetricsAnalyzer (src/agent/middleware/output_transformer.py:78-162)

numpy float arithmetic is modelled over exact rationals.  Where the source
takes a square root (standard deviation, Pearson correlation) — irrational
in general — the model uses the integer-square-root approximation `sqrtQ`;
no claim depends on those values, which flow only into the rendered text. -/

/-- Rational stand-in for `np.sqrt`: `sqrtQ q > 0 ↔ q > 0` for `q ≥ 0`,
which is all the source ever branches on. -/
def sqrtQ (q : ℚ) : ℚ := (Nat.sqrt (q.num.toNat * q.den) : ℚ) / (q.den : ℚ)

/-- `np.mean` (callers guard against the empty list). -/
def qMean (l : List ℚ) : ℚ := l.sum / (l.length : ℚ)

/-- The `1e-10` guard denominator used by the source. -/
def tinyEps : ℚ := 1 / 10 ^ 10

/-- The `ResourcePressure` record built by `_calculate_resource_pressure`. -/
structure ResourcePressure where
  avgUsageToRequestRatio : ℚ
  avgUsageToLimitRatio : ℚ
  exceededRequests : Bool
  exceededLimits : Bool
  deriving DecidableEq, Repr

/-- One side of the pressure computation: truncate both series to the
shorter length, take `np.mean(usage / (counterpart + 1e-10))` — the mean of
the pointwise ratios — and `np.any(usage > counterpart)`. -/
def pressureSide (usage counterpart : List ℚ) : ℚ × Bool :=
  if counterpart.length > 0 then
    let n := min usage.length counterpart.length
    let au := usage.take n
    let ac := counterpart.take n
    (qMean (List.zipWith (fun u c => u / (c + tinyEps)) au ac),
     (List.zipWith (fun u c => decide (u > c)) au ac).any id)
  else (0, false)

/-- `_calculate_resource_pressure(usage, request, limit)`
(src/agent/middleware/output_transformer.py:132-162). -/
def calculateResourcePressure (usage request limit : List ℚ) :
    Option ResourcePressure :=
  if usage.length = 0 then none
  else
    let r := pressureSide usage request
    let l := pressureSide usage limit
    some ⟨r.1, l.1, r.2, l.2⟩

/-! ## EvidenceTransformer: the four processors
(src/agent/middleware/output_transformer.py:21-75, 165-248, 294-333)

Each processor wraps its whole body in `try: ... except Exception: return
json.dumps(content)`.  Bodies are embedded as `Except`-valued functions; the
wrapper catches any error and falls back to the serialization.  The Jinja
`render` call is an external collaborator and is passed in as an arbitrary
(possibly failing) function — the claims hold for every such function. -/

/-- JSON string escaping (quotes and backslashes; enough to model
`json.dumps` for the purposes of this development). -/
def jsonEscape (s : String) : String :=
  String.join (s.toList.map fun c =>
    if c = '"' then "\\\"" else if c = '\\' then "\\\\" else String.singleton c)

mutual
/-- `json.dumps` on a `JVal`. -/
def jsonDumps : JVal → String
  | .str s => "\"" ++ jsonEscape s ++ "\""
  | .num q => if q.den = 1 then toString q.num else toString q.num ++ "/" ++ toString q.den
  | .bool b => if b then "true" else "false"
  | .null => "null"
  | .obj o => "\x7b" ++ jsonDumpsFields o ++ "\x7d"
  | .arr a => "[" ++ jsonDumpsItems a ++ "]"

def jsonDumpsFields : List (String × JVal) → String
  | [] => ""
  | [(k, v)] => "\"" ++ jsonEscape k ++ "\": " ++ jsonDumps v
  | (k, v) :: rest => "\"" ++ jsonEscape k ++ "\": " ++ jsonDumps v ++ ", " ++ jsonDumpsFields rest

def jsonDumpsItems : List JVal → String
  | [] => ""
  | [v] => jsonDumps v
  | v :: rest => jsonDumps v ++ ", " ++ jsonDumpsItems rest
end

/-- Python truthiness of a JSON value. -/
def pyTruthy : JVal → Bool
  | .str s => s ≠ ""
  | .num q => q ≠ 0
  | .bool b => b
  | .null => false
  | .obj o => !o.isEmpty
  | .arr a => !a.isEmpty

/-- The four evidence templates (src/constants.py `Templates`). -/
inductive Template where
  | componentLogs | projectLogs | metrics | traces
  deriving DecidableEq, Repr

/-- An arbitrary rendering function standing for `template_manager.render`
(Jinja, an external collaborator): it may fail, and the processors must
catch that failure too. -/
abbrev Renderer := Template → JVal → Except Unit String

/-- `openchoreo.dev/...` label keys (src/constants.py `OpenchoreoLabels`). -/
def componentUidLabel : String := "openchoreo.dev/component-uid"
def environmentUidLabel : String := "openchoreo.dev/environment-uid"
def projectUidLabel : String := "openchoreo.dev/project-uid"

/-- `x[0]` on a decoded value: list indexing; anything else raises
(`TypeError`/`KeyError`/`IndexError`), folded into one model error. -/
def pyIndex0 : JVal → Except Unit JVal
  | .arr (x :: _) => .ok x
  | _ => .error ()

/-- `x.get(k, default)`: requires a dict, else `AttributeError`. -/
def pyGet (x : JVal) (k : String) (dflt : JVal) : Except Unit JVal :=
  match x with
  | .obj o => .ok ((getObj o k).getD dflt)
  | _ => .error ()

/-- `_process_component_logs` body (lines 22-38): empty logs sentinel, else
shared labels from the first entry plus all entries, rendered. -/
def componentLogsBody (render : Renderer) (content : JObj) : Except Unit String := do
  let logs := (getObj content "logs").getD (.arr [])
  if !pyTruthy logs then
    return "No logs found"
  let firstLog ← pyIndex0 logs
  let labels ← pyGet firstLog "labels" (.obj [])
  let componentUid ← pyGet labels componentUidLabel (.str "N/A")
  let environmentUid ← pyGet labels environmentUidLabel (.str "N/A")
  let projectUid ← pyGet labels projectUidLabel (.str "N/A")
  render .componentLogs (.obj
    [("component_uid", componentUid), ("environment_uid", environmentUid),
     ("project_uid", projectUid), ("logs", logs)])

/-- `_process_component_logs` (lines 21-41): body plus catch-all fallback to
`json.dumps(content)`. -/
def processComponentLogs (render : Renderer) (content : JObj) : String :=
  match componentLogsBody render content with
  | .ok s => s
  | .error _ => jsonDumps (.obj content)

/-- One step of the grouping loop in `_process_project_logs`: append the
entry to its component's bucket, creating the bucket at the end on first
sight (Python dicts preserve insertion order). -/
def groupStep (groups : List (String × List JVal)) (cuid : String) (log : JVal) :
    List (String × List JVal) :=
  if groups.any (fun g => g.1 = cuid) then
    groups.map (fun g => if g.1 = cuid then (g.1, g.2 ++ [log]) else g)
  else groups ++ [(cuid, [log])]

/-- The grouping loop of `_process_project_logs` (lines 54-64): bucket log
entries by component uid, first-seen order preserved, each entry appended to
its bucket in input order. -/
def groupLogsByComponent (groups : List (String × List JVal)) :
    List JVal → Except Unit (List (String × List JVal))
  | [] => .ok groups
  | log :: rest => do
      let logLabels ← pyGet log "labels" (.obj [])
      let cuidVal ← pyGet logLabels componentUidLabel (.str "unknown")
      -- the uid is used as a dict key; a non-string (unhashable dict/list)
      -- key raises, and string keys are the only shape exercised here
      let cuid ← match cuidVal with
        | .str s => Except.ok s
        | _ => Except.error ()
      groupLogsByComponent (groupStep groups cuid log) rest

/-- `_process_project_logs` body (lines 45-72). -/
def projectLogsBody (render : Renderer) (content : JObj) : Except Unit String := do
  let logs := (getObj content "logs").getD (.arr [])
  if !pyTruthy logs then
    return "No logs found"
  let firstLog ← pyIndex0 logs
  let labels ← pyGet firstLog "labels" (.obj [])
  let logList ← match logs with
    | .arr l => Except.ok l
    | _ => Except.error ()
  let groups ← groupLogsByComponent [] logList
  let projectUid ← pyGet labels projectUidLabel (.str "N/A")
  let environmentUid ← pyGet labels environmentUidLabel (.str "N/A")
  render .projectLogs (.obj
    [("project_uid", projectUid), ("environment_uid", environmentUid),
     ("components", .arr (groups.map (fun g =>
        .obj [("component_uid", .str g.1), ("logs", .arr g.2)])))])

/-- `_process_project_logs` (lines 44-75) with its catch-all fallback. -/
def processProjectLogs (render : Renderer) (content : JObj) : String :=
  match projectLogsBody render content with
  | .ok s => s
  | .error _ => jsonDumps (.obj content)

/-- `min` of a numeric series (`np.min`; callers guard non-emptiness). -/
def qMin (l : List ℚ) : ℚ :=
  match l with
  | [] => 0
  | x :: xs => xs.foldl min x

/-- `max` of a numeric series (`np.max`; callers guard non-emptiness). -/
def qMax (l : List ℚ) : ℚ :=
  match l with
  | [] => 0
  | x :: xs => xs.foldl max x

/-- `np.percentile(values, q)` with the default linear interpolation:
sort ascending, rank `h = (n-1)·q/100`, interpolate between the two
bracketing order statistics. -/
def percentileQ (l : List ℚ) (q : ℚ) : ℚ :=
  let s := stableSort (fun a b => a ≤ b) l
  let h := ((s.length : ℚ) - 1) * q / 100
  let lo := h.floor.toNat
  let x := s.getD lo 0
  let y := s.getD (lo + 1) x
  x + (h - (lo : ℚ)) * (y - x)

/-- `np.median`: mean of the middle order statistic(s). -/
def medianQ (l : List ℚ) : ℚ :=
  let s := stableSort (fun a b => a ≤ b) l
  let n := s.length
  if n = 0 then 0
  else if n % 2 = 1 then s.getD (n / 2) 0
  else (s.getD (n / 2 - 1) 0 + s.getD (n / 2) 0) / 2

/-- Population variance, `np.std(values)^2`. -/
def varianceQ (l : List ℚ) : ℚ :=
  let m := qMean l
  qMean (l.map (fun v => (v - m) ^ 2))

/-- The stats dict built by `_calculate_metric_stats` (lines 78-98). -/
structure MetricStats where
  mean : ℚ
  median : ℚ
  minV : ℚ
  maxV : ℚ
  stdDev : ℚ
  coefficientOfVariation : ℚ
  p90 : ℚ
  p95 : ℚ
  startTime : Option JVal
  endTime : Option JVal
  deriving Repr

/-- `_calculate_metric_stats(values, timestamps)`: absent for an empty
series; otherwise mean/median/min/max, population std (via `sqrtQ`),
coefficient of variation guarded on zero mean, interpolated p90/p95, and the
first/last timestamp. -/
def calculateMetricStats (values : List ℚ) (timestamps : List JVal) :
    Option MetricStats :=
  if values.length = 0 then none
  else
    let mean := qMean values
    let std := sqrtQ (varianceQ values)
    some
      { mean := mean
        median := medianQ values
        minV := qMin values
        maxV := qMax values
        stdDev := std
        coefficientOfVariation := if mean ≠ 0 then std / mean else 0
        p90 := percentileQ values 90
        p95 := percentileQ values 95
        startTime := timestamps.head?
        endTime := timestamps.getLast? }

/-- The anomaly dict built by `_detect_anomalies`. -/
structure AnomalyReport where
  spikeCount : ℕ
  maxSpikeMagnitude : ℚ
  largestDrop : ℚ
  deriving DecidableEq, Repr

/-- `_detect_anomalies(values, threshold)` (lines 101-129): z-score spikes
(all-zero z vector when the deviation is 0), >50% consecutive percentage
changes with the `1e-10` denominator guard, the union of the two flagged
index sets counted once, max |z|, and the most negative first difference. -/
def detectAnomalies (values : List ℚ) (threshold : ℚ) : AnomalyReport :=
  if values.length < 2 then ⟨0, 0, 0⟩
  else
    let mean := qMean values
    let std := sqrtQ (varianceQ values)
    let zScores :=
      if std > 0 then values.map (fun v => |v - mean| / std)
      else values.map (fun _ => 0)
    let diffs := List.zipWith (fun b a => b - a) values.tail values
    let pctChanges := List.zipWith (fun d prev => |d / (prev + tinyEps)| * 100) diffs values
    let flagged := fun i =>
      decide (zScores.getD i 0 > threshold) && i < zScores.length
        || decide (pctChanges.getD i 0 > 50) && i < pctChanges.length
    { spikeCount := (List.range values.length).countP flagged
      maxSpikeMagnitude := qMax zScores
      largestDrop := qMin diffs }

/-- The six series names `_process_metrics` recognises, in source order. -/
def metricNames : List String :=
  ["cpuUsage", "cpuRequests", "cpuLimits", "memory", "memoryRequests", "memoryLimits"]

/-- The two usage series given full statistics. -/
def usageNames : List String := ["cpuUsage", "memory"]

/-- The four constant config series. -/
def configNames : List String :=
  ["cpuRequests", "cpuLimits", "memoryRequests", "memoryLimits"]

/-- `[point["value"] for point in series]` and the matching `point["time"]`
list: every point must be a dict with a numeric `value` and a present
`time`; any other shape raises somewhere in the comprehension or the ensuing
numpy arithmetic (all inside the processor's `try`), folded into one model
error. -/
def extractSeries : JVal → Except Unit (List ℚ × List JVal)
  | .arr items =>
      items.foldr
        (fun it acc => do
          let r ← acc
          match it with
          | .obj o =>
              match getObj o "value", getObj o "time" with
              | some (.num q), some t => .ok (q :: r.1, t :: r.2)
              | _, _ => .error ()
          | _ => .error ())
        (.ok ([], []))
  | _ => .error ()

/-- The extraction loop of `_process_metrics` (lines 173-185): keep each
recognised, present, truthy series with its values and timestamps. -/
def collectMetrics (content : JObj) : List String → Except Unit (List (String × (List ℚ × List JVal)))
  | [] => .ok []
  | n :: rest =>
      match getObj content n with
      | some v =>
          if pyTruthy v then do
            let s ← extractSeries v
            let r ← collectMetrics content rest
            .ok ((n, s) :: r)
          else collectMetrics content rest
      | none => collectMetrics content rest

/-- Pearson correlation (`np.corrcoef`), with `sqrtQ` standing in for the
float square root; a zero denominator gives 0 where numpy would give NaN —
either way a value, not an exception, and it flows only into the render. -/
def pearsonQ (x y : List ℚ) : ℚ :=
  let mx := qMean x
  let my := qMean y
  let cov := qMean (List.zipWith (fun a b => (a - mx) * (b - my)) x y)
  cov / (sqrtQ (varianceQ x) * sqrtQ (varianceQ y))

/-- Render a stats record into the template context. -/
def jOfStats : Option MetricStats → JVal
  | none => .null
  | some s => .obj
      [("mean", .num s.mean), ("median", .num s.median), ("min", .num s.minV),
       ("max", .num s.maxV), ("std_dev", .num s.stdDev),
       ("coefficient_of_variation", .num s.coefficientOfVariation),
       ("p90", .num s.p90), ("p95", .num s.p95),
       ("start_time", s.startTime.getD .null), ("end_time", s.endTime.getD .null)]

/-- Render an anomaly record into the template context. -/
def jOfAnomalies (a : AnomalyReport) : JVal :=
  .obj [("spike_count", .num (a.spikeCount : ℚ)),
        ("max_spike_magnitude", .num a.maxSpikeMagnitude),
        ("largest_drop", .num a.largestDrop)]

/-- Render a pressure record into the template context. -/
def jOfPressure : Option ResourcePressure → JVal
  | none => .null
  | some p => .obj
      [("avg_usage_to_request_ratio", .num p.avgUsageToRequestRatio),
       ("avg_usage_to_limit_ratio", .num p.avgUsageToLimitRatio),
       ("exceeded_requests", .bool p.exceededRequests),
       ("exceeded_limits", .bool p.exceededLimits)]

/-- `_process_metrics` body (lines 166-244): extract the recognised series,
full stats + anomaly detection for the usage series, first constant value
for the config series, per-resource pressure, cpu/memory correlation on
truncated-aligned arrays when both are present with length > 1, and render. -/
def metricsBody (render : Renderer) (content : JObj) : Except Unit String := do
  let metricsData ← collectMetrics content metricNames
  if metricsData.isEmpty then
    return "No metrics data available"
  let lookup := fun n => (metricsData.find? (fun p => p.1 = n)).map (·.2)
  let stats := (metricsData.filter (fun p => usageNames.contains p.1)).map
    (fun p => (p.1, calculateMetricStats p.2.1 p.2.2))
  let anomalies := (metricsData.filter (fun p => usageNames.contains p.1)).map
    (fun p => (p.1, detectAnomalies p.2.1 3))
  let configValues := (metricsData.filter (fun p => configNames.contains p.1)).map
    (fun p => (p.1, (p.2.1.head?.map JVal.num).getD .null))
  let valuesOf := fun n => ((lookup n).map (·.1)).getD []
  let cpuPressure :=
    if (lookup "cpuUsage").isSome then
      some (calculateResourcePressure (valuesOf "cpuUsage") (valuesOf "cpuRequests")
        (valuesOf "cpuLimits"))
    else none
  let memoryPressure :=
    if (lookup "memory").isSome then
      some (calculateResourcePressure (valuesOf "memory") (valuesOf "memoryRequests")
        (valuesOf "memoryLimits"))
    else none
  let correlations :=
    if (lookup "cpuUsage").isSome ∧ (lookup "memory").isSome then
      let n := min (valuesOf "cpuUsage").length (valuesOf "memory").length
      let cpu := (valuesOf "cpuUsage").take n
      let mem := (valuesOf "memory").take n
      if cpu.length > 1 then [("cpu_memory", JVal.num (pearsonQ cpu mem))] else []
    else []
  render .metrics (.obj
    [("stats", .obj (stats.map (fun p => (p.1, jOfStats p.2)))),
     ("anomalies", .obj (anomalies.map (fun p => (p.1, jOfAnomalies p.2)))),
     ("config_values", .obj configValues),
     ("cpu_pressure", (cpuPressure.map jOfPressure).getD .null),
     ("memory_pressure", (memoryPressure.map jOfPressure).getD .null),
     ("correlations", .obj correlations)])

/-- `_process_metrics` (lines 165-248) with its catch-all fallback. -/
def processMetrics (render : Renderer) (content : JObj) : String :=
  match metricsBody render content with
  | .ok s => s
  | .error _ => jsonDumps (.obj content)

/-- Read one span dict into the typed record `_build_span_tree` consumes:
`spanId` (required string — it is used as a dict key), optional
`parentSpanId`, `startTime` (compared by the sort) and
`durationNanoseconds` (summed for roots); other shapes raise inside the
processor's `try` and are folded into one model error. -/
def extractSpan : JVal → Except Unit Span
  | .obj o =>
      match getObj o "spanId", getObj o "parentSpanId", getObj o "startTime",
          getObj o "durationNanoseconds" with
      | some (.str id), p, some (.num st), some (.num d) =>
          match p with
          | none => .ok ⟨id, none, st, d⟩
          | some (.str ps) => .ok ⟨id, some ps, st, d⟩
          | some .null => .ok ⟨id, none, st, d⟩
          | some _ => .error ()
      | _, _, _, _ => .error ()
  | _ => .error ()

/-- Serialize a depth-annotated span back into the template context. -/
def jOfSpan (p : Span × Nat) : JVal :=
  .obj [("spanId", .str p.1.spanId),
        ("parentSpanId", (p.1.parentSpanId.map JVal.str).getD .null),
        ("startTime", .num p.1.startTime),
        ("durationNanoseconds", .num p.1.durationNanoseconds),
        ("depth", .num (p.2 : ℚ))]

/-- Per-trace processing in `_process_traces` (lines 304-325): skip traces
with no spans, build the span tree, total duration = sum of root-span
durations (depth 0), nanoseconds kept as-is until the `/ 1_000_000`. -/
def processOneTrace (t : JVal) : Except Unit (Option JVal) := do
  let spansVal ← pyGet t "spans" (.arr [])
  -- `if not spans: continue` — any falsy value (empty list, empty dict, 0,
  -- None, "") drops the trace silently; a truthy non-list then raises
  -- inside `_build_span_tree`.
  if !pyTruthy spansVal then
    return none
  let spanList ← match spansVal with
    | .arr l => Except.ok l
    | _ => Except.error ()
  let spans ← spanList.foldr
    (fun s acc => do
      let r ← acc
      let sp ← extractSpan s
      .ok (sp :: r))
    (Except.ok [])
  let tree := buildSpanTree spans
  let rootDurations := (tree.filter (fun p => p.2 = 0)).map (fun p => p.1.durationNanoseconds)
  let totalNs := if rootDurations.isEmpty then 0 else rootDurations.sum
  let traceId ← pyGet t "traceId" .null
  return some (.obj
    [("traceId", traceId),
     ("span_tree", .arr (tree.map jOfSpan)),
     ("total_spans", .num (spanList.length : ℚ)),
     ("total_duration_ms", .num (totalNs / 1000000))])

/-- `_process_traces` body (lines 295-329). -/
def tracesBody (render : Renderer) (content : JObj) : Except Unit String := do
  let traces := (getObj content "traces").getD (.arr [])
  let tookMs := (getObj content "tookMs").getD (.num 0)
  if !pyTruthy traces then
    return "No traces found"
  let traceList ← match traces with
    | .arr l => Except.ok l
    | _ => Except.error ()
  let processed ← traceList.foldr
    (fun t acc => do
      let r ← acc
      let p ← processOneTrace t
      match p with
      | some v => Except.ok (v :: r)
      | none => Except.ok r)
    (Except.ok [])
  render .traces (.obj [("traces", .arr processed), ("tookMs", tookMs)])

/-- `_process_traces` (lines 294-333) with its catch-all fallback. -/
def processTraces (render : Renderer) (content : JObj) : String :=
  match tracesBody render content with
  | .ok s => s
  | .error _ => jsonDumps (.obj content)

/-! ## StreamingDeltaParser (src/core/stream_parser.py)

`parse_partial_json` and `ChatResponseParser` are repository code and are
embedded from the source.  The decoder they delegate to,
`jiter.from_json(..., partial_mode="trailing-strings")`, is an external Rust
library; it is modelled from the spec below. -/

/-- Result of decoding one JSON value from a character stream. -/
inductive PParse where
  /-- a fully delimited value, with the remaining input. -/
  | complete (v : JVal) (rest : List Char)
  /-- input ended inside the value; best-effort value under
  trailing-strings partial mode. -/
  | partialV (v : JVal)
  /-- input ended before any of this value appeared (the pending item is
  dropped by the enclosing container). -/
  | exhausted
  /-- malformed input: a `ValueError`. -/
  | bad

/-- JSON whitespace. -/
def skipWs (l : List Char) : List Char :=
  l.dropWhile (fun c => c = ' ' || c = '\t' || c = '\n' || c = '\r')

/-- Hexadecimal digit. -/
def isHexDigit (c : Char) : Bool :=
  c.isDigit || ('a' ≤ c && c ≤ 'f') || ('A' ≤ c && c ≤ 'F')

/-- Value of a hexadecimal digit. -/
def hexVal (c : Char) : Nat :=
  if c.isDigit then c.toNat - '0'.toNat
  else if 'a' ≤ c && c ≤ 'f' then c.toNat - 'a'.toNat + 10
  else if 'A' ≤ c && c ≤ 'F' then c.toNat - 'A'.toNat + 10
  else 0

/-- The single-character string escapes JSON allows, as a lookup table. -/
def escPairs : List (Char × Char) :=
  [('"', '"'), ('\\', '\\'), ('/', '/'), ('n', '\n'), ('t', '\t'), ('r', '\r'),
   ('b', Char.ofNat 8), ('f', Char.ofNat 12)]

/-- Resolve a single-character escape. -/
def escChar (c : Char) : Option Char :=
  (escPairs.find? (fun p => p.1 = c)).map (fun p => p.2)

/-- Modelled from the spec: string scanning of the lenient decoder.  A
closing quote completes the string; end of input yields the partial string
(trailing-strings mode); a malformed escape — including a dangling
`\uXXX` fragment or a lone trailing backslash, which the caller's regex
strip-and-retry exists to remove — is a `ValueError`. -/
def scanString (acc : List Char) : List Char → PParse
  | [] => .partialV (.str acc.reverse.asString)
  | '"' :: rest => .complete (.str acc.reverse.asString) rest
  | '\\' :: [] => .bad
  | '\\' :: 'u' :: h1 :: h2 :: h3 :: h4 :: rest =>
      if [h1, h2, h3, h4].all isHexDigit then
        scanString
          (Char.ofNat ([h1, h2, h3, h4].foldl (fun n h => n * 16 + hexVal h) 0) :: acc)
          rest
      else .bad
  | '\\' :: 'u' :: _ => .bad
  | '\\' :: c :: rest =>
      match escChar c with
      | some ch => scanString (ch :: acc) rest
      | none => .bad
  | c :: rest => scanString (c :: acc) rest

/-- Digits (with at most one decimal point) to an exact rational. -/
def digitsToQ (intPart fracPart : List Char) : ℚ :=
  let iv : ℕ := intPart.foldl (fun n c => n * 10 + (c.toNat - '0'.toNat)) 0
  let fv : ℕ := fracPart.foldl (fun n c => n * 10 + (c.toNat - '0'.toNat)) 0
  (iv : ℚ) + (fv : ℚ) / (10 : ℚ) ^ fracPart.length

/-- Modelled from the spec: number scanning (optional minus, digits,
optional fraction; exponents are not exercised by this service). -/
def scanNumber (l : List Char) : Option (ℚ × List Char) :=
  let (neg, l1) := match l with
    | '-' :: r => (true, r)
    | _ => (false, l)
  let intPart := l1.takeWhile Char.isDigit
  if intPart.isEmpty then none
  else
    let l2 := l1.drop intPart.length
    let (fracPart, rest) := match l2 with
      | '.' :: r =>
          let f := r.takeWhile Char.isDigit
          (f, r.drop f.length)
      | _ => ([], l2)
    let q := digitsToQ intPart fracPart
    some (if neg then -q else q, rest)

mutual
/-- Modelled from the spec: one lenient-decoded JSON value
(`jiter.from_json` with `partial_mode="trailing-strings"`): a complete
value, a best-effort value when the input ends inside it, `exhausted` when
the input ends before it starts, `bad` on malformed text. -/
def parseValue (fuel : Nat) (l : List Char) : PParse :=
  match fuel with
  | 0 => .bad
  | fuel + 1 =>
      match skipWs l with
      | [] => .exhausted
      | '{' :: rest => parseObject fuel [] true rest
      | '[' :: rest => parseArray fuel [] true rest
      | '"' :: rest => scanString [] rest
      | 't' :: rest =>
          match rest with
          | 'r' :: 'u' :: 'e' :: r => .complete (.bool true) r
          | _ => if ['r', 'u', 'e'].take rest.length = rest then .exhausted else .bad
      | 'f' :: rest =>
          match rest with
          | 'a' :: 'l' :: 's' :: 'e' :: r => .complete (.bool false) r
          | _ => if ['a', 'l', 's', 'e'].take rest.length = rest then .exhausted else .bad
      | 'n' :: rest =>
          match rest with
          | 'u' :: 'l' :: 'l' :: r => .complete .null r
          | _ => if ['u', 'l', 'l'].take rest.length = rest then .exhausted else .bad
      | l' =>
          match scanNumber l' with
          | some (q, rest) => .complete (.num q) rest
          | none => .bad
termination_by structural fuel

/-- Modelled from the spec: the members of an object after `\x7b`.  A
truncated key or a missing colon drops the pending pair; a truncated value
is kept when the partial decode produced one. -/
def parseObject (fuel : Nat) (fields : JObj) (first : Bool) (l : List Char) : PParse :=
  match fuel with
  | 0 => .bad
  | fuel + 1 =>
      match skipWs l with
      | [] => .partialV (.obj fields)
      | '}' :: rest => if first then .complete (.obj fields) rest else .bad
      | '"' :: rest =>
          match scanString [] rest with
          | .partialV _ => .partialV (.obj fields)
          | .complete (.str k) r2 =>
              (match skipWs r2 with
              | [] => .partialV (.obj fields)
              | ':' :: r3 =>
                  (match parseValue fuel r3 with
                  | .exhausted => .partialV (.obj fields)
                  | .partialV v => .partialV (.obj (fields ++ [(k, v)]))
                  | .bad => .bad
                  | .complete v r4 =>
                      (match skipWs r4 with
                      | [] => .partialV (.obj (fields ++ [(k, v)]))
                      | ',' :: r5 => parseObject fuel (fields ++ [(k, v)]) false r5
                      | '}' :: r5 => .complete (.obj (fields ++ [(k, v)])) r5
                      | _ => .bad))
              | _ => .bad)
          | _ => .bad
      | _ => .bad
termination_by structural fuel

/-- Modelled from the spec: the elements of an array after `[`. -/
def parseArray (fuel : Nat) (items : List JVal) (first : Bool) (l : List Char) : PParse :=
  match fuel with
  | 0 => .bad
  | fuel + 1 =>
      match skipWs l with
      | [] => .partialV (.arr items)
      | ']' :: rest => if first then .complete (.arr items) rest else .bad
      | l' =>
          match parseValue fuel l' with
          | .exhausted => .partialV (.arr items)
          | .partialV v => .partialV (.arr (items ++ [v]))
          | .bad => .bad
          | .complete v r =>
              (match skipWs r with
              | [] => .partialV (.arr (items ++ [v]))
              | ',' :: r2 => parseArray fuel (items ++ [v]) false r2
              | ']' :: r2 => .complete (.arr (items ++ [v])) r2
              | _ => .bad)
termination_by structural fuel
end

/-- Modelled from the spec: `jiter.from_json(s, partial_mode=
"trailing-strings")` — the whole input must be one value (plus trailing
whitespace); a best-effort value is produced for truncated input; a
`ValueError` is `.error`. -/
def jiterFromJson (s : String) : Except Unit JVal :=
  let l := s.toList
  match parseValue (l.length + 1) l with
  | .complete v rest => if skipWs rest = [] then .ok v else .error ()
  | .partialV v => .ok v
  | .exhausted => .error ()
  | .bad => .error ()

/-- `re.sub(r"\\u[0-9a-fA-F]{0,3}$", "", s)`: strip a dangling unicode
escape fragment from the end. -/
def stripDanglingUnicode (s : String) : String :=
  let rev := s.toList.reverse
  let k := min 3 (rev.takeWhile isHexDigit).length
  match rev.drop k with
  | 'u' :: '\\' :: r => r.reverse.asString
  | _ => s

/-- `re.sub(r"\\$", "", s)`: strip one trailing backslash. -/
def stripTrailingBackslash (s : String) : String :=
  match s.toList.reverse with
  | '\\' :: r => r.reverse.asString
  | _ => s

/-- `parse_partial_json(json_str)` (src/core/stream_parser.py:10-21): lenient
decode; keep only dict results; on `ValueError`, strip a dangling unicode
fragment and a trailing lone backslash and retry once; `None` otherwise. -/
def parsePartialJson (s : String) : Option JObj :=
  match jiterFromJson s with
  | .ok (.obj o) => some o
  | .ok _ => none
  | .error _ =>
      match jiterFromJson (stripTrailingBackslash (stripDanglingUnicode s)) with
      | .ok (.obj o) => some o
      | _ => none

/-- `ChatResponseParser.__init__` state: `_buffer`, `_message`, `_actions`.
`_message` and `_actions` hold whatever the decoded object exposed, so they
are modelled as `JVal` (initially `""` and `[]`). -/
structure ChatParserState where
  buffer : String
  message : JVal
  actions : JVal

/-- A fresh `ChatResponseParser()`. -/
def initChatParser : ChatParserState := ⟨"", .str "", .arr []⟩

/-- Python `len(x)`: defined for strings, lists and dicts; `TypeError`
otherwise. -/
def pyLen : JVal → Except Unit ℕ
  | .str s => .ok s.length
  | .arr a => .ok a.length
  | .obj o => .ok o.length
  | _ => .error ()

/-- Python `x[n:]`: strings and lists slice; a dict raises `TypeError`. -/
def pySliceFrom : JVal → ℕ → Except Unit JVal
  | .str s, n => .ok (.str (s.toList.drop n).asString)
  | .arr a, n => .ok (.arr (a.drop n))
  | _, _ => .error ()

/-- `ChatResponseParser.push(chunk)` (src/core/stream_parser.py:30-46),
with the buffer/actions mutations that precede any raise applied to the
returned state: append the chunk, partial-decode the whole buffer, replace
`_actions` when an `actions` field is exposed, and emit the suffix of
`message` beyond the previously remembered length when it grew.  The
`Except` is the exception `push` raises (`len`/slicing on an unexpected
`message` shape). -/
def push (st : ChatParserState) (chunk : String) :
    ChatParserState × Except Unit (Option JVal) :=
  let buf := st.buffer ++ chunk
  match parsePartialJson buf with
  | none => ({ st with buffer := buf }, .ok none)
  | some p =>
      let st1 : ChatParserState :=
        { st with
            buffer := buf
            actions := match getObj p "actions" with
              | some a => a
              | none => st.actions }
      let newMessage := (getObj p "message").getD (.str "")
      match pyLen newMessage with
      | .error e => (st1, .error e)
      | .ok nNew =>
          match pyLen st.message with
          | .error e => (st1, .error e)
          | .ok nOld =>
              if nNew > nOld then
                match pySliceFrom newMessage nOld with
                | .error e => (st1, .error e)
                | .ok delta => ({ st1 with message := newMessage }, .ok (some delta))
              else (st1, .ok none)

/-! ## RemediationApplier (src/agent/patch.py:105-318)

`stream_patch` is an async generator talking to the MCP tool gateway.  The
gateway, an external collaborator, is abstracted as an oracle (`Gateway`):
which required tools exist, whether client setup or the binding enumeration
fails, and the outcome of each `patch_release_binding` call.  The generator
becomes a pure function from the oracle and the raw action list to the
ordered list of emitted events. -/

/-- Python message text of a remediation parsing failure (`str(e)`). -/
def parseFailMsg : ParseFail → String
  | .malformedReference r =>
      s!"Invalid resource reference: '{r}'. Expected 'Kind name'."
  | .malformedFieldPath p =>
      s!"Invalid field_path: '{p}'. Expected 'spec.<overrideCategory>.<path...>'."
  | .unsupportedCategory c =>
      s!"Unsupported override category: '{c}'. " ++
        "Supported: ['workloadOverrides', 'componentTypeEnvOverrides', 'traitOverrides']"

/-- Python message text of an `apply_change` failure (`str(e)`). -/
def patchErrMsg : PatchErr → String
  | .shapeError => "attribute or type error while descending the override document"
  | .selectorTerminal f k v =>
      s!"Array selector '{f}[{k}={v}]' cannot be the final segment — need a field after it."

/-- `ActionStatus` (src/models/remediation_result.py). -/
inductive ActionStatus where
  | unchanged | revised
  deriving DecidableEq, Repr

/-- `ResourceChange` (src/models/remediation_result.py): resource reference,
field path and value, all strings. -/
structure ResourceChange where
  resource : String
  field_path : String
  value : String
  deriving DecidableEq, Repr

/-- `RemediationAction` (src/models/remediation_result.py). -/
structure RemediationAction where
  description : String
  rationale : Option String
  status : ActionStatus
  changes : List ResourceChange
  deriving DecidableEq, Repr

/-- Pydantic validation of one raw action mapping (`RemediationAction(**a)`):
a dict with a string `description`, an optional string `rationale`, a
`status` that is one of the two enum values, and a `changes` list (default
empty) of dicts with string `resource`/`field_path`/`value`. -/
def parseChange (v : JVal) : Except Unit ResourceChange :=
  match v with
  | .obj o =>
      match getObj o "resource", getObj o "field_path", getObj o "value" with
      | some (.str r), some (.str f), some (.str val) => .ok ⟨r, f, val⟩
      | _, _, _ => .error ()
  | _ => .error ()

/-- Pydantic validation of the `changes` list. -/
def parseChanges (cs : List JVal) : Except Unit (List ResourceChange) :=
  cs.foldr
    (fun c acc => do
      let r ← acc
      let pc ← parseChange c
      Except.ok (pc :: r))
    (.ok [])

/-- Pydantic validation of one `RemediationAction`. -/
def parseAction (v : JVal) : Except Unit RemediationAction :=
  match v with
  | .obj o => do
      let description ← match getObj o "description" with
        | some (.str d) => Except.ok d
        | _ => Except.error ()
      let rationale ← match getObj o "rationale" with
        | none => Except.ok none
        | some .null => Except.ok none
        | some (.str r) => Except.ok (some r)
        | some _ => Except.error ()
      let status ← match getObj o "status" with
        | some (.str "unchanged") => Except.ok ActionStatus.unchanged
        | some (.str "revised") => Except.ok ActionStatus.revised
        | _ => Except.error ()
      let changes ← match getObj o "changes" with
        | none => Except.ok []
        | some (.arr cs) => parseChanges cs
        | some _ => Except.error ()
      .ok ⟨description, rationale, status, changes⟩
  | _ => .error ()

/-- `[RemediationAction(**a) for a in patch_context.actions]`. -/
def parseActions (raw : List JVal) : Except Unit (List RemediationAction) :=
  raw.foldr
    (fun v acc => do
      let r ← acc
      let a ← parseAction v
      Except.ok (a :: r))
    (.ok [])

/-- `BindingInfo` (src/agent/patch.py:105-109). -/
structure BindingInfo where
  component_name : String
  release_name : String
  raw : JObj

/-- The gateway oracle: which of the three required MCP tools resolve,
whether client initialization or the binding enumeration raises, the
binding-name lookup it produces, and the outcome of each
`patch_release_binding` call (keyed on binding name, resolved info and the
override parameters sent). -/
structure Gateway where
  mcpInitError : Option String
  hasListComponents : Bool
  hasListReleaseBindings : Bool
  hasPatchReleaseBinding : Bool
  bindingLookupError : Option String
  bindingLookup : List (String × BindingInfo)
  patchOutcome : String → BindingInfo → List (String × JVal) → Except String Unit

/-- Per-action result status in the emitted stream. -/
inductive RStatus where
  | success | failed | skipped
  deriving DecidableEq, Repr

/-- One emitted NDJSON event of the patch stream.  `doneApplied s t` stands
for `{"type":"patch_done","summary":"Applied {s}/{t} fixes"}` and
`doneNoActions` for the "No revised actions to apply" completion. -/
inductive Event where
  | error (message : String)
  | started
  | progress (index : JVal) (action : String)
  | result (index : JVal) (action : String) (status : RStatus) (details : String)
  | doneApplied (success total : ℕ)
  | doneNoActions
  deriving Repr

/-- `"index" in raw` with fallback to the position: `raw.get("index", i)`. -/
def actionIndex (raw : JVal) (i : ℕ) : JVal :=
  match raw with
  | .obj o => (getObj o "index").getD (.num (i : ℚ))
  | _ => .num (i : ℚ)

/-- The filter/pairing loop (src/agent/patch.py:161-166): keep actions with
status REVISED and a non-empty change list, paired with the caller-supplied
index (defaulting to the enumeration position). -/
def indexedActions (raw : List JVal) (parsed : List RemediationAction) :
    List (JVal × RemediationAction) :=
  (List.zip raw parsed).enum.filterMap fun p =>
    if p.2.2.status = .revised ∧ ¬p.2.2.changes.isEmpty then
      some (actionIndex p.2.1 p.1, p.2.2)
    else none

/-- `OVERRIDE_PARAM_MAP[override_key]` after a successful parse. -/
def paramName (overrideKey : String) : String :=
  ((overrideParamMap.find? (fun p => p.1 = overrideKey)).map (·.2)).getD ""

/-- One queued change inside a group: override key, MCP parameter name,
parsed segments, value. -/
structure GroupChange where
  overrideKey : String
  paramName : String
  segments : List Seg
  value : String

/-- One `(resource_kind, resource_name)` group of queued changes. -/
structure Group where
  kind : String
  name : String
  changes : List GroupChange

/-- `grouped[(kind, name)].append(...)` on an insertion-ordered dict. -/
def addToGroup (gs : List Group) (kind name : String) (c : GroupChange) : List Group :=
  match gs with
  | [] => [⟨kind, name, [c]⟩]
  | g :: rest =>
      if g.kind = kind ∧ g.name = name then ⟨g.kind, g.name, g.changes ++ [c]⟩ :: rest
      else g :: addToGroup rest kind name c

/-- The grouping loop of one action (src/agent/patch.py:228-248): walk the
changes in order; a non-`ReleaseBinding` kind is recorded as skipped (first
component of the result) and does not abort its siblings; a
`parse_resource_ref`/`parse_field_path` failure raises, ending the loop —
skipped kinds seen before the failure are kept, the groups are discarded. -/
def collectGroups (acc : List Group) :
    List ResourceChange → List String × Except ParseFail (List Group)
  | [] => ([], .ok acc)
  | c :: rest =>
      match parseResourceRef c.resource with
      | .error e => ([], .error e)
      | .ok (kind, name) =>
          if kind ≠ "ReleaseBinding" then
            let r := collectGroups acc rest
            (kind :: r.1, r.2)
          else
            match parseFieldPath c.field_path with
            | .error e => ([], .error e)
            | .ok (okey, segs) =>
                collectGroups (addToGroup acc kind name ⟨okey, paramName okey, segs, c.value⟩) rest

/-- `apply_change` on the deep-copied seed, which need not be a dict when
the binding's existing override value has an unexpected shape: a non-dict
raises at the first loop iteration. -/
def applyChangeJ (v : JVal) (segments : List Seg) (value : String) :
    JVal × Option PatchErr :=
  match v with
  | .obj o =>
      let r := applyChange o segments value
      (.obj r.1, r.2)
  | _ =>
      match segments with
      | [] => (v, none)
      | _ => (v, some .shapeError)

/-- The override-building loop of one group (src/agent/patch.py:270-275):
for each queued change, seed the parameter (once) with a deep copy of the
binding's current value for that override key — empty dict when absent —
then apply the change onto the accumulated copy; the first `apply_change`
exception aborts. -/
def buildOverrides (info : BindingInfo) (acc : List (String × JVal)) :
    List GroupChange → Except PatchErr (List (String × JVal))
  | [] => .ok acc
  | gc :: rest =>
      let cur := match (acc.find? (fun p => p.1 = gc.paramName)).map (·.2) with
        | some v => v
        | none => (getObj info.raw gc.overrideKey).getD (.obj [])
      let r := applyChangeJ cur gc.segments gc.value
      match r.2 with
      | some e => .error e
      | none => buildOverrides info (setObj' acc gc.paramName r.1) rest

where
  /-- insertion-ordered dict update on the parameter map. -/
  setObj' (acc : List (String × JVal)) (k : String) (v : JVal) : List (String × JVal) :=
    match acc with
    | [] => [(k, v)]
    | (k', v') :: rest => if k' = k then (k', v) :: rest else (k', v') :: setObj' rest k v

/-- The per-group loop of one action (src/agent/patch.py:253-299): a missing
binding is a per-group `failed` result and the loop continues; an
`apply_change` or gateway exception is a single `failed` result that aborts
the remaining groups (the per-action `try` catches it); a successful patch
call appends a `success` result and increments the success counter. -/
def processGroups (gw : Gateway) (idx : JVal) (desc : String) :
    List Group → List Event × ℕ
  | [] => ([], 0)
  | g :: rest =>
      match (gw.bindingLookup.find? (fun p => p.1 = g.name)).map (·.2) with
      | none =>
          let r := processGroups gw idx desc rest
          (.result idx desc .failed s!"No component found for release binding '{g.name}'"
            :: r.1, r.2)
      | some info =>
          match buildOverrides info [] g.changes with
          | .error e => ([.result idx desc .failed (patchErrMsg e)], 0)
          | .ok overridesByParam =>
              match gw.patchOutcome g.name info overridesByParam with
              | .error e => ([.result idx desc .failed e], 0)
              | .ok _ =>
                  let r := processGroups gw idx desc rest
                  (.result idx desc .success s!"Applied to {g.kind} {g.name}" :: r.1,
                    r.2 + 1)

/-- One indexed action of the main loop (src/agent/patch.py:213-311): the
`applying` progress event, the skipped results from grouping, then either
the single `failed` result of a caught parse exception or the per-group
results, together with the number of successes contributed. -/
def processAction (gw : Gateway) (idx : JVal) (a : RemediationAction) :
    List Event × ℕ :=
  let desc := a.description
  let cg := collectGroups [] a.changes
  let skippedEvents := cg.1.map
    (fun kind => Event.result idx desc .skipped s!"Unsupported resource kind: '{kind}'")
  match cg.2 with
  | .error e =>
      (.progress idx desc :: skippedEvents ++ [.result idx desc .failed (parseFailMsg e)], 0)
  | .ok groups =>
      let r := processGroups gw idx desc groups
      (.progress idx desc :: skippedEvents ++ r.1, r.2)

/-- `stream_patch` (src/agent/patch.py:147-318) as the ordered event list it
emits, given the gateway oracle and the raw caller-supplied actions. -/
def streamPatch (gw : Gateway) (rawActions : List JVal) : List Event :=
  match parseActions rawActions with
  | .error _ => [.error "Invalid patch actions: ..."]
  | .ok parsed =>
      let indexed := indexedActions rawActions parsed
      if indexed.isEmpty then [.started, .doneNoActions]
      else
        match gw.mcpInitError with
        | some e => [.error s!"Failed to connect to MCP server: {e}"]
        | none =>
            let missing :=
              (if gw.hasListComponents then [] else ["list_components"]) ++
              (if gw.hasListReleaseBindings then [] else ["list_release_bindings"]) ++
              (if gw.hasPatchReleaseBinding then [] else ["patch_release_binding"])
            if ¬missing.isEmpty then
              let joined := String.intercalate ", " missing
              [.error s!"Required MCP tools not available: {joined}"]
            else
              match gw.bindingLookupError with
              | some e => [.error s!"Failed to resolve release bindings: {e}"]
              | none =>
                  let folded := indexed.foldl
                    (fun acc ia =>
                      let r := processAction gw ia.1 ia.2
                      (acc.1 ++ r.1, acc.2 + r.2))
                    (([] : List Event), 0)
                  .started :: folded.1 ++ [.doneApplied folded.2 indexed.length]

/-! ## Helper observations on the event stream, and concrete scenarios -/

/-- The `(successCount, total)` of the terminal "Applied X/Y fixes" summary,
when the run ends with one. -/
def doneSummary? (evs : List Event) : Option (ℕ × ℕ) :=
  match evs.getLast? with
  | some (.doneApplied s t) => some (s, t)
  | _ => none

/-- Whether an event is the stream-terminating `{"type":"error"}` event. -/
def isErrorEvent : Event → Bool
  | .error _ => true
  | _ => false

/-- Whether an event is a terminal `patch_done` event (either summary). -/
def isDoneEvent : Event → Bool
  | .doneApplied _ _ => true
  | .doneNoActions => true
  | _ => false

/-- The number of `(kind, name)` change groups an action dispatches (0 when
its grouping phase raises). -/
def actionGroupCount (a : RemediationAction) : ℕ :=
  match (collectGroups [] a.changes).2 with
  | .ok gs => gs.length
  | .error _ => 0

/-- The total number of change groups across the filtered indexed actions:
the quantity that actually bounds the success counter. -/
def groupTotal (raw : List JVal) (parsed : List RemediationAction) : ℕ :=
  ((indexedActions raw parsed).map (fun p => actionGroupCount p.2)).sum

/-- A raw change dict against a named release binding, with a plain
override path. -/
def mkChange (binding : String) : JVal :=
  .obj [("resource", .str ("ReleaseBinding " ++ binding)),
        ("field_path", .str "spec.workloadOverrides.replicas"),
        ("value", .str "2")]

/-- A revised action touching two different release bindings — two change
groups inside one action. -/
def twoBindingAction : JVal :=
  .obj [("description", .str "scale"), ("status", .str "revised"),
        ("changes", .arr [mkChange "b1", mkChange "b2"])]

/-- A revised action whose only change has a malformed resource reference
(no whitespace: `parse_resource_ref` raises). -/
def badRefAction : JVal :=
  .obj [("description", .str "bad"), ("status", .str "revised"),
        ("changes", .arr [.obj [("resource", .str "badref"),
          ("field_path", .str "spec.workloadOverrides.replicas"),
          ("value", .str "2")]])]

/-- A healthy gateway: client and tools available, two bindings resolved,
every patch call succeeding. -/
def happyGateway : Gateway :=
  { mcpInitError := none
    hasListComponents := true
    hasListReleaseBindings := true
    hasPatchReleaseBinding := true
    bindingLookupError := none
    bindingLookup := [("b1", ⟨"comp", "rel", []⟩), ("b2", ⟨"comp", "rel", []⟩)]
    patchOutcome := fun _ _ _ => .ok () }

/-! ## Theorems -/

/-- A successful scan returns an existing entry: the index points into the
array and holds exactly the returned object, whose field `k` equals `v`. -/
theorem findMatch_ok_some (a : List JVal) (k v : String) (i : ℕ) (o : JObj)
    (h : findMatch a k v = .ok (some (i, o))) :
    a.get? i = some (.obj o) ∧ (getObj o k).any (fun x => x.isStrEq v) = true := by
  induction a generalizing i with
  | nil => simp [findMatch] at h
  | cons x rest ih =>
      cases x with
      | obj o' =>
          by_cases hc : (getObj o' k).any (fun x => x.isStrEq v)
          · simp [findMatch, hc] at h
            obtain ⟨hi, ho⟩ := h
            subst hi; subst ho; exact ⟨rfl, hc⟩
          · simp [findMatch, hc] at h
            cases hrest : findMatch rest k v with
            | error e => rw [hrest] at h; simp [Except.map] at h
            | ok r =>
                rw [hrest] at h
                cases r with
                | none => simp [Except.map] at h
                | some p =>
                    simp [Except.map] at h
                    obtain ⟨hi, ho⟩ := h
                    subst ho
                    subst hi
                    have := ih p.1 (by rw [hrest])
                    simpa using this
      | str s => simp [findMatch] at h
      | num q => simp [findMatch] at h
      | bool b => simp [findMatch] at h
      | null => simp [findMatch] at h
      | arr l => simp [findMatch] at h

/-- An exact-scan miss means no dict entry of the array carries `k = v`
(and, implicitly, that every entry is a dict). -/
theorem findMatch_ok_none (a : List JVal) (k v : String)
    (h : findMatch a k v = .ok none) :
    ∀ o, JVal.obj o ∈ a → (getObj o k).any (fun x => x.isStrEq v) = false := by
  induction a with
  | nil => simp
  | cons x rest ih =>
      intro o ho
      cases x with
      | obj o' =>
          by_cases hc : (getObj o' k).any (fun x => x.isStrEq v)
          · simp [findMatch, hc] at h
          · simp [findMatch, hc] at h
            rcases List.mem_cons.mp ho with he | he
            · cases he; simpa using hc
            · cases hm : findMatch rest k v with
              | error e => rw [hm] at h; simp [Except.map] at h
              | ok r =>
                  rw [hm] at h
                  cases r with
                  | none => exact ih hm o he
                  | some p => simp [Except.map] at h
      | str s => simp [findMatch] at h
      | num q => simp [findMatch] at h
      | bool b => simp [findMatch] at h
      | null => simp [findMatch] at h
      | arr l => simp [findMatch] at h

/-- An exact-scan miss also certifies that every entry is a dict (a non-dict
would have raised before the scan could return `None`). -/
theorem findMatch_ok_none_all_obj (a : List JVal) (k v : String)
    (h : findMatch a k v = .ok none) : ∀ e ∈ a, ∃ o, e = JVal.obj o := by
  induction a with
  | nil => simp
  | cons x rest ih =>
      intro e he
      cases x with
      | obj o' =>
          by_cases hc : (getObj o' k).any (fun x => x.isStrEq v)
          · simp [findMatch, hc] at h
          · simp [findMatch, hc] at h
            rcases List.mem_cons.mp he with h1 | h1
            · exact ⟨o', h1⟩
            · cases hm : findMatch rest k v with
              | error e2 => rw [hm] at h; simp [Except.map] at h
              | ok r =>
                  rw [hm] at h
                  cases r with
                  | none => exact ih hm e h1
                  | some p => simp [Except.map] at h
      | str s => simp [findMatch] at h
      | num q => simp [findMatch] at h
      | bool b => simp [findMatch] at h
      | null => simp [findMatch] at h
      | arr l => simp [findMatch] at h

/-- Over an all-dict array the scan never raises. -/
theorem findMatch_all_obj_ok (a : List JVal) (alt v : String)
    (hobj : ∀ e ∈ a, ∃ o, e = JVal.obj o) : ∃ r, findMatch a alt v = .ok r := by
  induction a with
  | nil => exact ⟨none, rfl⟩
  | cons x rest ih =>
      obtain ⟨o', ho'⟩ := hobj x (List.mem_cons_self x rest)
      subst ho'
      by_cases hc : (getObj o' alt).any (fun x => x.isStrEq v)
      · exact ⟨some (0, o'), by simp [findMatch, hc]⟩
      · obtain ⟨r, hr⟩ := ih (fun e he => hobj e (List.mem_cons_of_mem _ he))
        exact ⟨r.map (fun p => (p.1 + 1, p.2)), by simp [findMatch, hc, hr, Except.map]⟩

/-- A fallback miss over an all-dict array means no entry carries the
requested value under either alternate identifier field (other than the one
equal to `matchKey`, which the fallback skips). -/
theorem findFallback_none_no_match (a : List JVal) (mk v : String)
    (hobj : ∀ e ∈ a, ∃ o, e = JVal.obj o)
    (h : findFallback a mk v = none) :
    ∀ alt, (alt = "key" ∨ alt = "name") → alt ≠ mk →
      ∀ o, JVal.obj o ∈ a → (getObj o alt).any (fun x => x.isStrEq v) = false := by
  intro alt halt hne o ho
  have hta : tryAltKey a mk v alt = none := by
    unfold findFallback at h
    cases h1 : tryAltKey a mk v "key" with
    | some p => rw [h1] at h; simp [Option.orElse] at h
    | none =>
        rw [h1] at h
        simp [Option.orElse] at h
        rcases halt with he | he <;> subst he
        · exact h1
        · exact h
  unfold tryAltKey at hta
  rw [if_neg hne] at hta
  obtain ⟨r, hr⟩ := findMatch_all_obj_ok a alt v hobj
  rw [hr] at hta
  cases r with
  | none => exact findMatch_ok_none a alt v hr o ho
  | some p => simp at hta

/-- A successful alternate-key attempt comes from a successful scan. -/
theorem tryAltKey_some (a : List JVal) (mk v alt : String) (j : ℕ) (entry : JObj)
    (h : tryAltKey a mk v alt = some (j, entry)) :
    findMatch a alt v = .ok (some (j, entry)) := by
  unfold tryAltKey at h
  by_cases he : alt = mk
  · simp [he] at h
  · simp only [he, if_false] at h
    cases hm : findMatch a alt v with
    | error e => rw [hm] at h; exact absurd h (by simp)
    | ok r => rw [hm] at h; simp at h; rw [h]

/-- A fallback match returns an existing entry of the array whose `"key"` or
`"name"` identifier field equals the requested value. -/
theorem findFallback_some (a : List JVal) (mk v : String) (j : ℕ) (entry : JObj)
    (h : findFallback a mk v = some (j, entry)) :
    a.get? j = some (.obj entry) ∧
    ((getObj entry "key").any (fun x => x.isStrEq v) = true ∨
      (getObj entry "name").any (fun x => x.isStrEq v) = true) := by
  unfold findFallback at h
  cases h1 : tryAltKey a mk v "key" with
  | some p =>
      rw [h1] at h
      simp [Option.orElse] at h
      subst h
      have := findMatch_ok_some a "key" v j entry (tryAltKey_some a mk v "key" j entry h1)
      exact ⟨this.1, Or.inl this.2⟩
  | none =>
      rw [h1] at h
      simp [Option.orElse] at h
      have := findMatch_ok_some a "name" v j entry (tryAltKey_some a mk v "name" j entry h)
      exact ⟨this.1, Or.inr this.2⟩

/-- C10: when a terminal ArraySelector matches no entry of the target array
— no entry carries `matchKey = matchValue` and none carries the value under
the fallback identifier fields `"key"`/`"name"` either — `apply_change`
first appends the new entry `{matchKey: matchValue}` to the array and only
then raises the terminal-selector error: the returned document state
carries the appended entry (one element longer) even though the call fails.
No atomicity on this error path. -/
theorem applyChange_terminal_selector_mutates (doc : JObj) (f k v value : String)
    (arr : List JVal)
    (hf : getObj doc f = some (.arr arr))
    (hexact : findMatch arr k v = .ok none)
    (hfb : findFallback arr k v = none) :
    (∀ o, JVal.obj o ∈ arr → (getObj o k).any (fun x => x.isStrEq v) = false) ∧
    (∀ alt, (alt = "key" ∨ alt = "name") → alt ≠ k →
      ∀ o, JVal.obj o ∈ arr → (getObj o alt).any (fun x => x.isStrEq v) = false) ∧
    applyChange doc [Seg.sel f k v] value =
      (setObj doc f (.arr (arr ++ [.obj [(k, .str v)]])),
        some (PatchErr.selectorTerminal f k v)) ∧
    (arr ++ [JVal.obj [(k, .str v)]]).length = arr.length + 1 := by
  refine ⟨findMatch_ok_none arr k v hexact,
    findFallback_none_no_match arr k v (findMatch_ok_none_all_obj arr k v hexact) hfb,
    ?_, by simp⟩
  simp [applyChange, selSetup, hf, hexact, hfb]

/-- C10 witness: a concrete document `{"env": [{"key": "OTHER"}]}` and the
terminal selector `env[key=DSN]`: the call errors, yet the returned document
has the fresh `{"key": "DSN"}` entry appended. -/
theorem applyChange_terminal_selector_mutates_witness :
    getObj [("env", JVal.arr [.obj [("key", .str "OTHER")]])] "env" =
        some (.arr [.obj [("key", .str "OTHER")]]) ∧
    findMatch [.obj [("key", .str "OTHER")]] "key" "DSN" = .ok none ∧
    findFallback [.obj [("key", .str "OTHER")]] "key" "DSN" = none ∧
    applyChange [("env", JVal.arr [.obj [("key", .str "OTHER")]])]
        [Seg.sel "env" "key" "DSN"] "x" =
      (setObj [("env", JVal.arr [.obj [("key", .str "OTHER")]])] "env"
          (.arr ([.obj [("key", .str "OTHER")]] ++ [.obj [("key", .str "DSN")]])),
        some (PatchErr.selectorTerminal "env" "key" "DSN")) :=
  ⟨rfl, rfl, rfl,
    (applyChange_terminal_selector_mutates
      [("env", JVal.arr [.obj [("key", .str "OTHER")]])] "env" "key" "DSN" "x"
      [.obj [("key", .str "OTHER")]] rfl rfl rfl).2.2.1⟩

/-- C5: when a non-terminal ArraySelector has no exact `matchKey` match but
the fallback scan over the alternate identifier fields `"key"`/`"name"`
finds an entry, `apply_change` descends into that existing entry: no array
entry carries `matchKey = matchValue`, the entry at the matched index is an
existing element of the array whose `"key"` or `"name"` field equals
`matchValue`, the remaining segments and the value land inside it, and the
array keeps its length (no new entry is appended). -/
theorem applyChange_fallback_descends (doc : JObj) (f k v value : String)
    (arr : List JVal) (rest : List Seg) (j : ℕ) (entry : JObj)
    (hrest : rest ≠ [])
    (hf : getObj doc f = some (.arr arr))
    (hexact : findMatch arr k v = .ok none)
    (hfb : findFallback arr k v = some (j, entry)) :
    (∀ o, JVal.obj o ∈ arr → (getObj o k).any (fun x => x.isStrEq v) = false) ∧
    arr.get? j = some (.obj entry) ∧
    ((getObj entry "key").any (fun x => x.isStrEq v) = true ∨
      (getObj entry "name").any (fun x => x.isStrEq v) = true) ∧
    applyChange doc (Seg.sel f k v :: rest) value =
      (setObj doc f (.arr (arr.set j (.obj (applyChange entry rest value).1))),
        (applyChange entry rest value).2) ∧
    (arr.set j (JVal.obj (applyChange entry rest value).1)).length = arr.length := by
  refine ⟨findMatch_ok_none arr k v hexact,
    (findFallback_some arr k v j entry hfb).1,
    (findFallback_some arr k v j entry hfb).2, ?_, by simp⟩
  have hne : rest.isEmpty = false := by
    cases rest with
    | nil => exact absurd rfl hrest
    | cons a l => rfl
  simp [applyChange, selSetup, hf, hexact, hfb, hne]

/-- C5 witness: the spec scenario — the path says `env[key=POSTGRES_DSN]`
but the existing entry identifies itself with `name`; the change lands in
that entry and the array stays a singleton. -/
theorem applyChange_fallback_descends_witness :
    ([JVal.obj [("name", .str "POSTGRES_DSN"), ("value", .str "old")]].get? 0 =
        some (.obj [("name", .str "POSTGRES_DSN"), ("value", .str "old")])) ∧
    ((getObj [("name", JVal.str "POSTGRES_DSN"), ("value", JVal.str "old")] "key").any
        (fun x => x.isStrEq "POSTGRES_DSN") = true ∨
      (getObj [("name", JVal.str "POSTGRES_DSN"), ("value", JVal.str "old")] "name").any
        (fun x => x.isStrEq "POSTGRES_DSN") = true) ∧
    applyChange [("env", JVal.arr [.obj [("name", .str "POSTGRES_DSN"), ("value", .str "old")]])]
        (Seg.sel "env" "key" "POSTGRES_DSN" :: [Seg.key "value"]) "new" =
      (setObj [("env", JVal.arr [.obj [("name", .str "POSTGRES_DSN"), ("value", .str "old")]])]
          "env"
          (.arr ([JVal.obj [("name", .str "POSTGRES_DSN"), ("value", .str "old")]].set 0
            (.obj (applyChange [("name", .str "POSTGRES_DSN"), ("value", .str "old")]
              [Seg.key "value"] "new").1))),
        (applyChange [("name", .str "POSTGRES_DSN"), ("value", .str "old")]
          [Seg.key "value"] "new").2) := by
  have h := applyChange_fallback_descends
    [("env", JVal.arr [.obj [("name", .str "POSTGRES_DSN"), ("value", .str "old")]])]
    "env" "key" "POSTGRES_DSN" "new"
    [.obj [("name", .str "POSTGRES_DSN"), ("value", .str "old")]]
    [Seg.key "value"] 0 [("name", .str "POSTGRES_DSN"), ("value", .str "old")]
    (by simp) rfl rfl rfl
  exact ⟨h.2.1, h.2.2.1, h.2.2.2.1⟩

/-- C7: on the spans `A` (no parent, start 10), `B` (parent `A`, start 20),
`C` (parent `A`, start 15), the span tree builder emits the flat ordered
sequence `A` at depth 0, then `C` and `B` at depth 1 — the one root first,
its children sorted by start time ascending, pre-order with each node before
its children. -/
theorem buildSpanTree_example :
    buildSpanTree
        [⟨"A", none, 10, 0⟩, ⟨"B", some "A", 20, 0⟩, ⟨"C", some "A", 15, 0⟩] =
      [(⟨"A", none, 10, 0⟩, 0), (⟨"C", some "A", 15, 0⟩, 1),
        (⟨"B", some "A", 20, 0⟩, 1)] := by
  decide

/-- C4 counterexample: the token `env[key` violates the selector grammar
`word[word=value]`, yet `parse_field_path` does not fail `MalformedFieldPath`
— it silently treats the token as a plain Key. -/
theorem parseFieldPath_segment_violation_no_failure :
    matchArraySelector "env[key" = none ∧
    parseFieldPath "spec.workloadOverrides.env[key" =
      .ok ("workloadOverrides", [Seg.key "env[key"]) :=
  ⟨rfl, rfl⟩

/-- C4 (amended): `parse_field_path` splits on `.`, fails
`MalformedFieldPath` iff there are fewer than 3 tokens or the first is not
literally `spec`, fails `UnsupportedOverrideCategory` iff the second token
is unknown, and maps each later token to an ArraySelector when it matches
`word[word=value]` and to a plain Key otherwise — segment-grammar
violations do not fail.  The three concrete examples behave as the spec
lists them. -/
theorem parseFieldPath_spec (s : String) (toks : List String)
    (htoks : toks = (splitOnChar '.' s.toList).map List.asString) :
    (toks.length < 3 ∨ toks.head? ≠ some "spec" →
        parseFieldPath s = .error (.malformedFieldPath s)) ∧
    (3 ≤ toks.length → toks.head? = some "spec" →
      ((overrideParamMap.find? (fun p => p.1 = (toks.drop 1).headD "")).isNone →
          parseFieldPath s = .error (.unsupportedCategory ((toks.drop 1).headD ""))) ∧
      (∀ cat segs, parseFieldPath s = .ok (cat, segs) →
          cat = (toks.drop 1).headD "" ∧ segs = (toks.drop 2).map tokenToSeg)) ∧
    (∀ t a k v, matchArraySelector t = some (a, k, v) → tokenToSeg t = .sel a k v) ∧
    (∀ t, matchArraySelector t = none → tokenToSeg t = .key t) ∧
    parseFieldPath "spec.workloadOverrides.container.env[key=POSTGRES_DSN].value" =
      .ok ("workloadOverrides",
        [.key "container", .sel "env" "key" "POSTGRES_DSN", .key "value"]) ∧
    parseFieldPath "notspec.x.y" = .error (.malformedFieldPath "notspec.x.y") ∧
    parseFieldPath "spec.unknownCategory.x" =
      .error (.unsupportedCategory "unknownCategory") := by
  subst htoks
  refine ⟨?_, ?_, ?_, ?_, rfl, rfl, rfl⟩
  · intro h
    simp only [parseFieldPath]
    rw [if_pos h]
  · intro h3 hspec
    have hcond : ¬(((splitOnChar '.' s.toList).map List.asString).length < 3 ∨
        ((splitOnChar '.' s.toList).map List.asString).head? ≠ some "spec") := by
      push_neg
      exact ⟨by omega, hspec⟩
    constructor
    · intro hnone
      simp only [parseFieldPath]
      rw [if_neg hcond, if_pos hnone]
    · intro cat segs hok
      simp only [parseFieldPath] at hok
      rw [if_neg hcond] at hok
      by_cases hnone : (overrideParamMap.find? (fun p =>
          p.1 = (((splitOnChar '.' s.toList).map List.asString).drop 1).headD "")).isNone
      · rw [if_pos hnone] at hok
        exact absurd hok (by simp)
      · rw [if_neg hnone] at hok
        simp only [Except.ok.injEq, Prod.mk.injEq] at hok
        exact ⟨hok.1.symm, hok.2.symm⟩
  · intro t a k v h
    simp [tokenToSeg, h]
  · intro t h
    simp [tokenToSeg, h]

/-- C4 witness: the amended theorem applied at the POSTGRES_DSN path. -/
theorem parseFieldPath_spec_witness :
    parseFieldPath "spec.workloadOverrides.container.env[key=POSTGRES_DSN].value" =
      .ok ("workloadOverrides",
        [.key "container", .sel "env" "key" "POSTGRES_DSN", .key "value"]) :=
  (parseFieldPath_spec "spec.workloadOverrides.container.env[key=POSTGRES_DSN].value"
    _ rfl).2.2.2.2.1

/-- `np.any(xs > ys)` on zipped series holds exactly when some aligned index
strictly exceeds. -/
theorem zipAny_gt_iff (xs ys : List ℚ) :
    (List.zipWith (fun u c => decide (u > c)) xs ys).any id = true ↔
      ∃ i, i < min xs.length ys.length ∧ xs.getD i 0 > ys.getD i 0 := by
  induction xs generalizing ys with
  | nil => simp
  | cons x xs ih =>
      cases ys with
      | nil => simp
      | cons y ys =>
          simp only [List.zipWith_cons_cons, List.any_cons, id, Bool.or_eq_true,
            decide_eq_true_eq, ih, List.length_cons, Nat.succ_min_succ]
          constructor
          · rintro (h | ⟨i, hi, hgt⟩)
            · exact ⟨0, Nat.succ_pos _, by simpa using h⟩
            · exact ⟨i + 1, by omega, by simpa using hgt⟩
          · rintro ⟨i, hi, hgt⟩
            cases i with
            | zero => exact Or.inl (by simpa using hgt)
            | succ i => exact Or.inr ⟨i, by omega, by simpa using hgt⟩

/-- `getD` through `take`, below the truncation point. -/
theorem getD_take (l : List ℚ) (n i : ℕ) (h : i < n) (d : ℚ) :
    (l.take n).getD i d = l.getD i d := by
  simp [List.getD_eq_getElem?_getD, List.getElem?_take, h]

/-- C3 (amended): `_calculate_resource_pressure` is absent iff the usage
series is empty; against a non-empty request (resp. limit) series the ratio
is the mean of the pointwise ratios `u / (c + 1e-10)` over the
truncated-aligned pairs — not the ratio of means — and the exceeded boolean
holds iff some aligned usage point strictly exceeds its counterpart; an
empty counterpart series gives ratio 0 and exceeded false. -/
theorem resourcePressure_spec (usage request limit : List ℚ) :
    (calculateResourcePressure usage request limit = none ↔ usage = []) ∧
    (∀ r, calculateResourcePressure usage request limit = some r →
      (request ≠ [] →
        r.avgUsageToRequestRatio =
          qMean (List.zipWith (fun u c => u / (c + tinyEps))
            (usage.take (min usage.length request.length))
            (request.take (min usage.length request.length))) ∧
        (r.exceededRequests = true ↔
          ∃ i, i < min usage.length request.length ∧
            usage.getD i 0 > request.getD i 0)) ∧
      (request = [] → r.avgUsageToRequestRatio = 0 ∧ r.exceededRequests = false) ∧
      (limit ≠ [] →
        r.avgUsageToLimitRatio =
          qMean (List.zipWith (fun u c => u / (c + tinyEps))
            (usage.take (min usage.length limit.length))
            (limit.take (min usage.length limit.length))) ∧
        (r.exceededLimits = true ↔
          ∃ i, i < min usage.length limit.length ∧
            usage.getD i 0 > limit.getD i 0)) ∧
      (limit = [] → r.avgUsageToLimitRatio = 0 ∧ r.exceededLimits = false)) := by
  have side : ∀ c : List ℚ, c ≠ [] →
      pressureSide usage c =
        (qMean (List.zipWith (fun u x => u / (x + tinyEps))
          (usage.take (min usage.length c.length))
          (c.take (min usage.length c.length))),
         (List.zipWith (fun u x => decide (u > x))
          (usage.take (min usage.length c.length))
          (c.take (min usage.length c.length))).any id) := by
    intro c hc
    have : c.length > 0 := List.length_pos.mpr hc
    simp [pressureSide, this]
  have sideE : ∀ c : List ℚ, c = [] → pressureSide usage c = (0, false) := by
    intro c hc; subst hc; simp [pressureSide]
  have exIff : ∀ c : List ℚ,
      ((List.zipWith (fun u x => decide (u > x))
          (usage.take (min usage.length c.length))
          (c.take (min usage.length c.length))).any id = true ↔
        ∃ i, i < min usage.length c.length ∧ usage.getD i 0 > c.getD i 0) := by
    intro c
    rw [zipAny_gt_iff]
    constructor
    · rintro ⟨i, hi, hgt⟩
      have hu : min usage.length c.length ≤ usage.length := Nat.min_le_left _ _
      have hc : min usage.length c.length ≤ c.length := Nat.min_le_right _ _
      have hlen : min (usage.take (min usage.length c.length)).length
          (c.take (min usage.length c.length)).length = min usage.length c.length := by
        simp [List.length_take]
      rw [hlen] at hi
      exact ⟨i, hi, by rwa [getD_take _ _ _ hi, getD_take _ _ _ hi] at hgt⟩
    · rintro ⟨i, hi, hgt⟩
      refine ⟨i, ?_, ?_⟩
      · simp [List.length_take]
        omega
      · rwa [getD_take _ _ _ hi, getD_take _ _ _ hi]
  constructor
  · constructor
    · intro h
      by_cases hu : usage.length = 0
      · exact List.length_eq_zero.mp hu
      · simp [calculateResourcePressure, hu] at h
    · intro h; subst h; simp [calculateResourcePressure]
  · intro r hr
    have hu : ¬usage.length = 0 := by
      intro h0
      simp [calculateResourcePressure, h0] at hr
    simp only [calculateResourcePressure, hu, if_false] at hr
    have hr' := hr
    simp only [Option.some.injEq] at hr'
    subst hr'
    refine ⟨?_, ?_, ?_, ?_⟩
    · intro hreq
      rw [side request hreq]
      exact ⟨rfl, by exact (exIff request)⟩
    · intro hreq
      rw [sideE request hreq]
      exact ⟨rfl, rfl⟩
    · intro hlim
      rw [side limit hlim]
      exact ⟨rfl, by exact (exIff limit)⟩
    · intro hlim
      rw [sideE limit hlim]
      exact ⟨rfl, rfl⟩

/-- C3 counterexample: on usage `[2, 1]` and request `[1, 2]` (already
aligned), the ratio of means is `(3/2) / (3/2) = 1`, but the code computes
the mean of the pointwise ratios `np.mean(usage / (request + 1e-10))`,
which differs from 1 — `avgUsageToRequestRatio` is not the ratio of means. -/
theorem resourcePressure_not_ratio_of_means :
    qMean [2, 1] / qMean [1, 2] = 1 ∧
    (calculateResourcePressure [2, 1] [1, 2] []).map
        ResourcePressure.avgUsageToRequestRatio ≠ some 1 := by
  constructor
  · norm_num [qMean]
  · norm_num [calculateResourcePressure, pressureSide, qMean, tinyEps, List.zipWith]

/-- C3 witness: the amended theorem applied at usage `[2, 1]`,
request `[1, 2]`, limit `[]`, with its hypotheses discharged there. -/
theorem resourcePressure_spec_witness :
    (([1, 2] : List ℚ) ≠ []) ∧
    ((⟨qMean (List.zipWith (fun u c => u / (c + tinyEps)) [2, 1] [1, 2]), 0, true, false⟩ :
        ResourcePressure).avgUsageToRequestRatio =
      qMean (List.zipWith (fun u c => u / (c + tinyEps))
        (([2, 1] : List ℚ).take (min ([2, 1] : List ℚ).length ([1, 2] : List ℚ).length))
        (([1, 2] : List ℚ).take (min ([2, 1] : List ℚ).length ([1, 2] : List ℚ).length))) ∧
      ((⟨qMean (List.zipWith (fun u c => u / (c + tinyEps)) [2, 1] [1, 2]), 0, true, false⟩ :
          ResourcePressure).exceededRequests = true ↔
        ∃ i, i < min ([2, 1] : List ℚ).length ([1, 2] : List ℚ).length ∧
          ([2, 1] : List ℚ).getD i 0 > ([1, 2] : List ℚ).getD i 0)) := by
  have hsome : calculateResourcePressure [2, 1] [1, 2] [] =
      some ⟨qMean (List.zipWith (fun u c => u / (c + tinyEps)) [2, 1] [1, 2]), 0, true, false⟩ := by
    norm_num [calculateResourcePressure, pressureSide, qMean, tinyEps, List.zipWith]
  exact ⟨by simp,
    ((resourcePressure_spec [2, 1] [1, 2] []).2 _ hsome).1 (by simp)⟩

/-- C6: each of the four evidence processors is its body wrapped in a
catch-all: for every input mapping and every rendering function, the
processor either returns its body's successful result, or — whenever the
body fails for any internal reason — returns exactly the raw-JSON
serialization of its input.  In particular every processor is a total
function: no failure propagates to the caller. -/
theorem processors_catch_and_fallback (render : Renderer) (content : JObj) :
    ((∃ s, componentLogsBody render content = .ok s ∧
        processComponentLogs render content = s) ∨
      (componentLogsBody render content = .error () ∧
        processComponentLogs render content = jsonDumps (.obj content))) ∧
    ((∃ s, projectLogsBody render content = .ok s ∧
        processProjectLogs render content = s) ∨
      (projectLogsBody render content = .error () ∧
        processProjectLogs render content = jsonDumps (.obj content))) ∧
    ((∃ s, metricsBody render content = .ok s ∧
        processMetrics render content = s) ∨
      (metricsBody render content = .error () ∧
        processMetrics render content = jsonDumps (.obj content))) ∧
    ((∃ s, tracesBody render content = .ok s ∧
        processTraces render content = s) ∨
      (tracesBody render content = .error () ∧
        processTraces render content = jsonDumps (.obj content))) := by
  refine ⟨?_, ?_, ?_, ?_⟩
  · cases h : componentLogsBody render content with
    | ok s => exact Or.inl ⟨s, rfl, by simp [processComponentLogs, h]⟩
    | error e => exact Or.inr ⟨by rw [← h], by simp [processComponentLogs, h]⟩
  · cases h : projectLogsBody render content with
    | ok s => exact Or.inl ⟨s, rfl, by simp [processProjectLogs, h]⟩
    | error e => exact Or.inr ⟨by rw [← h], by simp [processProjectLogs, h]⟩
  · cases h : metricsBody render content with
    | ok s => exact Or.inl ⟨s, rfl, by simp [processMetrics, h]⟩
    | error e => exact Or.inr ⟨by rw [← h], by simp [processMetrics, h]⟩
  · cases h : tracesBody render content with
    | ok s => exact Or.inl ⟨s, rfl, by simp [processTraces, h]⟩
    | error e => exact Or.inr ⟨by rw [← h], by simp [processTraces, h]⟩

/-- C8: on a fresh parser, pushing the chunk with the open string `Hel`
and then the closing `lo"}` makes the second call return exactly the delta
`"lo"` and leaves the exposed message `"Hello"`; and in general, whenever
the partial decode of the grown buffer exposes a string message, a delta is
returned iff the new message is strictly longer than the remembered one, the
delta is exactly the suffix beyond that length and the remembered message is
updated — otherwise push returns nothing and the message stays. -/
theorem push_delta_spec :
    ((push (push initChatParser "\x7b\"message\":\"Hel").1 "lo\"\x7d").2 =
        .ok (some (.str "lo")) ∧
      (push (push initChatParser "\x7b\"message\":\"Hel").1 "lo\"\x7d").1.message =
        .str "Hello") ∧
    (∀ (st : ChatParserState) (chunk : String) (p : JObj) (mOld mNew : String),
      st.message = .str mOld →
      parsePartialJson (st.buffer ++ chunk) = some p →
      (getObj p "message").getD (.str "") = .str mNew →
      (mNew.length > mOld.length →
        (push st chunk).2 = .ok (some (.str (mNew.toList.drop mOld.length).asString)) ∧
        (push st chunk).1.message = .str mNew) ∧
      (¬ mNew.length > mOld.length →
        (push st chunk).2 = .ok none ∧ (push st chunk).1.message = .str mOld)) := by
  refine ⟨⟨rfl, rfl⟩, ?_⟩
  intro st chunk p mOld mNew hmsg hp hm
  constructor <;> intro hlen <;>
    simp [push, hp, hm, hmsg, pyLen, pySliceFrom, hlen]

/-- C8 witness: the general law applied at the concrete second push, its
hypotheses discharged there. -/
theorem push_delta_spec_witness :
    ("Hello".length > "Hel".length) ∧
    ((push (push initChatParser "\x7b\"message\":\"Hel").1 "lo\"\x7d").2 =
        .ok (some (.str ("Hello".toList.drop "Hel".length).asString)) ∧
      (push (push initChatParser "\x7b\"message\":\"Hel").1 "lo\"\x7d").1.message =
        .str "Hello") :=
  ⟨by decide,
    (push_delta_spec.2 (push initChatParser "\x7b\"message\":\"Hel").1 "lo\"\x7d"
      [("message", .str "Hello")] "Hel" "Hello" rfl rfl rfl).1 (by decide)⟩

/-- C9 counterexample: the chunk `{"message":5}` decodes successfully to a
dict whose `message` is a number; `push` then evaluates `len(new_message)`
on an `int` and raises `TypeError` — the claim that `push` never raises on
an unexpected decoded shape is false. -/
theorem push_raises_on_numeric_message :
    (push initChatParser "\x7b\"message\":5\x7d").2 = .error () :=
  rfl

/-- C9 (amended): `push` never raises as long as the decoded object's
`message` field is a string (or absent, defaulting to `""`): a failed or
non-mapping partial decode only appends the chunk to the buffer and returns
no delta, and a successful decode with a string message always returns an
`ok` outcome.  (A non-string `message` of a length-less shape, by contrast,
raises — see the counterexample.) -/
theorem push_silent_on_decode_failure (st : ChatParserState) (chunk : String)
    (mOld : String) (hmsg : st.message = .str mOld) :
    (parsePartialJson (st.buffer ++ chunk) = none →
      push st chunk = ({ st with buffer := st.buffer ++ chunk }, .ok none)) ∧
    (∀ p mNew, parsePartialJson (st.buffer ++ chunk) = some p →
      (getObj p "message").getD (.str "") = .str mNew →
      ∃ d, (push st chunk).2 = .ok d) := by
  constructor
  · intro h
    simp [push, h]
  · intro p mNew hp hm
    by_cases hlen : mNew.length > mOld.length
    · exact ⟨some (.str (mNew.toList.drop mOld.length).asString),
        by simp [push, hp, hm, hmsg, pyLen, pySliceFrom, hlen]⟩
    · exact ⟨none, by simp [push, hp, hm, hmsg, pyLen, pySliceFrom, hlen]⟩

/-- C9 witness: the amended theorem applied on a fresh parser to the chunk
`5` — a successful but non-mapping decode — with its hypotheses discharged
there. -/
theorem push_silent_on_decode_failure_witness :
    initChatParser.message = .str "" ∧
    parsePartialJson (initChatParser.buffer ++ "5") = none ∧
    push initChatParser "5" =
      ({ initChatParser with buffer := initChatParser.buffer ++ "5" }, .ok none) :=
  ⟨rfl, rfl,
    (push_silent_on_decode_failure initChatParser "5" "" rfl).1 rfl⟩

/-- Each `(kind, name)` group contributes at most one success. -/
theorem processGroups_succ_le (gw : Gateway) (idx : JVal) (desc : String)
    (gs : List Group) : (processGroups gw idx desc gs).2 ≤ gs.length := by
  induction gs with
  | nil => simp [processGroups]
  | cons g rest ih =>
      simp only [processGroups]
      cases hb : (gw.bindingLookup.find? (fun p => p.1 = g.name)).map (·.2) with
      | none => simpa using Nat.le_succ_of_le ih
      | some info =>
          cases hov : buildOverrides info [] g.changes with
          | error e => simp [hov]
          | ok ov =>
              cases hp : gw.patchOutcome g.name info ov with
              | error e => simp [hov, hp]
              | ok u => simpa [hov, hp] using Nat.succ_le_succ ih

/-- An action contributes at most its group count to the success counter. -/
theorem processAction_succ_le (gw : Gateway) (idx : JVal) (a : RemediationAction) :
    (processAction gw idx a).2 ≤ actionGroupCount a := by
  simp only [processAction, actionGroupCount]
  cases hg : (collectGroups [] a.changes).2 with
  | error e => simp
  | ok gs => simpa using processGroups_succ_le gw idx a.description gs

/-- The main loop's success counter is bounded by the total group count. -/
theorem streamPatch_foldl_bound (gw : Gateway)
    (l : List (JVal × RemediationAction)) (acc : List Event × ℕ) :
    (l.foldl
      (fun acc ia =>
        let r := processAction gw ia.1 ia.2
        ((acc.1 ++ r.1 : List Event), acc.2 + r.2)) acc).2 ≤
      acc.2 + (l.map (fun p => actionGroupCount p.2)).sum := by
  induction l generalizing acc with
  | nil => simp
  | cons x l ih =>
      simp only [List.foldl_cons, List.map_cons, List.sum_cons]
      calc _ ≤ (acc.2 + (processAction gw x.1 x.2).2) +
            (l.map (fun p => actionGroupCount p.2)).sum := ih _
        _ ≤ _ := by
            have := processAction_succ_le gw x.1 x.2
            omega

/-- C1 counterexample: one revised action whose two changes target two
different release bindings, both patched successfully, ends with the
summary "Applied 2/1 fixes" — `successCount = 2` exceeds `total = 1`, the
number of filtered input actions. -/
theorem streamPatch_success_exceeds_total :
    doneSummary? (streamPatch happyGateway [twoBindingAction]) = some (2, 1) ∧
    ¬(2 ≤ 1) :=
  ⟨rfl, by decide⟩

/-- A run of the main loop ends with its `doneApplied` summary. -/
theorem doneSummary?_run (X : List Event) (a b : ℕ) :
    doneSummary? (.started :: X ++ [.doneApplied a b]) = some (a, b) := by
  unfold doneSummary?
  rw [List.getLast?_concat]

/-- C1 (amended): at the terminal "Applied X/Y fixes" event, `total` is the
number of input actions with status REVISED and a non-empty change list,
and `successCount` is bounded by the total number of `(kind, name)` change
groups across those actions — one action can contribute several successes,
one per group, so `successCount ≤ total` holds only when every action
dispatches at most one group. -/
theorem streamPatch_success_bounded (gw : Gateway) (raw : List JVal) (s t : ℕ)
    (h : doneSummary? (streamPatch gw raw) = some (s, t)) :
    ∃ parsed, parseActions raw = .ok parsed ∧
      t = (indexedActions raw parsed).length ∧
      s ≤ groupTotal raw parsed := by
  cases hparse : parseActions raw with
  | error e => simp [streamPatch, hparse, doneSummary?] at h
  | ok parsed =>
      refine ⟨parsed, rfl, ?_⟩
      by_cases hempty : (indexedActions raw parsed).isEmpty
      · simp [streamPatch, hparse, hempty, doneSummary?] at h
      · cases hmcp : gw.mcpInitError with
        | some e => simp [streamPatch, hparse, hempty, hmcp, doneSummary?] at h
        | none =>
            by_cases htools : gw.hasListComponents ∧ gw.hasListReleaseBindings ∧
                gw.hasPatchReleaseBinding
            · cases hbl : gw.bindingLookupError with
              | some e =>
                  simp [streamPatch, hparse, hempty, hmcp, htools.1, htools.2.1,
                    htools.2.2, hbl, doneSummary?] at h
              | none =>
                  have hrun : streamPatch gw raw =
                      .started ::
                        ((indexedActions raw parsed).foldl
                          (fun acc ia =>
                            let r := processAction gw ia.1 ia.2
                            ((acc.1 ++ r.1 : List Event), acc.2 + r.2))
                          ([], 0)).1 ++
                        [.doneApplied
                          ((indexedActions raw parsed).foldl
                            (fun acc ia =>
                              let r := processAction gw ia.1 ia.2
                              ((acc.1 ++ r.1 : List Event), acc.2 + r.2))
                            ([], 0)).2
                          (indexedActions raw parsed).length] := by
                    simp [streamPatch, hparse, hempty, hmcp, htools.1, htools.2.1,
                      htools.2.2, hbl]
                  rw [hrun, doneSummary?_run] at h
                  simp only [Option.some.injEq, Prod.mk.injEq] at h
                  obtain ⟨hs, ht⟩ := h
                  subst hs; subst ht
                  refine ⟨rfl, ?_⟩
                  simpa [groupTotal] using
                    streamPatch_foldl_bound gw (indexedActions raw parsed) ([], 0)
            · by_cases h1 : gw.hasListComponents <;>
                by_cases h2 : gw.hasListReleaseBindings <;>
                by_cases h3 : gw.hasPatchReleaseBinding
              · exact absurd ⟨h1, h2, h3⟩ htools
              all_goals
                simp [streamPatch, hparse, hempty, hmcp, h1, h2, h3, doneSummary?] at h

/-- C1 witness: the amended bound applied at the two-binding scenario:
`parseActions` succeeds, `total = 1`, and `successCount = 2` is within the
group bound `groupTotal = 2`. -/
theorem streamPatch_success_bounded_witness :
    doneSummary? (streamPatch happyGateway [twoBindingAction]) = some (2, 1) ∧
    ∃ parsed, parseActions [twoBindingAction] = .ok parsed ∧
      1 = (indexedActions [twoBindingAction] parsed).length ∧
      2 ≤ groupTotal [twoBindingAction] parsed :=
  ⟨rfl, streamPatch_success_bounded happyGateway [twoBindingAction] 2 1 rfl⟩

/-- The per-group loop emits only `patch_result` events, never an `error`
event. -/
theorem processGroups_no_error (gw : Gateway) (idx : JVal) (desc : String)
    (gs : List Group) :
    ∀ ev ∈ (processGroups gw idx desc gs).1, isErrorEvent ev = false := by
  induction gs with
  | nil => simp [processGroups]
  | cons g rest ih =>
      intro ev hev
      cases hb : (gw.bindingLookup.find? (fun p => p.1 = g.name)).map (·.2) with
      | none =>
          have heq : (processGroups gw idx desc (g :: rest)).1 =
              .result idx desc .failed
                  s!"No component found for release binding '{g.name}'" ::
                (processGroups gw idx desc rest).1 := by
            simp [processGroups, hb]
          rw [heq] at hev
          simp at hev
          rcases hev with h | h
          · rw [h]; rfl
          · exact ih ev h
      | some info =>
          cases hov : buildOverrides info [] g.changes with
          | error e =>
              have heq : (processGroups gw idx desc (g :: rest)).1 =
                  [.result idx desc .failed (patchErrMsg e)] := by
                simp [processGroups, hb, hov]
              rw [heq] at hev
              simp at hev
              rw [hev]; rfl
          | ok ov =>
              cases hp : gw.patchOutcome g.name info ov with
              | error e =>
                  have heq : (processGroups gw idx desc (g :: rest)).1 =
                      [.result idx desc .failed e] := by
                    simp [processGroups, hb, hov, hp]
                  rw [heq] at hev
                  simp at hev
                  rw [hev]; rfl
              | ok u =>
                  have heq : (processGroups gw idx desc (g :: rest)).1 =
                      .result idx desc .success s!"Applied to {g.kind} {g.name}" ::
                        (processGroups gw idx desc rest).1 := by
                    simp [processGroups, hb, hov, hp]
                  rw [heq] at hev
                  simp at hev
                  rcases hev with h | h
                  · rw [h]; rfl
                  · exact ih ev h

/-- A processed action emits only `progress` and `result` events. -/
theorem processAction_no_error (gw : Gateway) (idx : JVal) (a : RemediationAction) :
    ∀ ev ∈ (processAction gw idx a).1, isErrorEvent ev = false := by
  intro ev hev
  simp only [processAction] at hev
  cases hg : (collectGroups [] a.changes).2 with
  | error e =>
      rw [hg] at hev
      simp at hev
      rcases hev with h | ⟨k, _, h⟩ | h <;> (subst h; rfl)
  | ok gs =>
      rw [hg] at hev
      simp at hev
      rcases hev with h | ⟨k, _, h⟩ | h
      · subst h; rfl
      · subst h; rfl
      · exact processGroups_no_error gw idx a.description gs ev h

/-- The main loop accumulates only non-error events. -/
theorem streamPatch_foldl_no_error (gw : Gateway)
    (l : List (JVal × RemediationAction)) (acc : List Event × ℕ)
    (hacc : ∀ ev ∈ acc.1, isErrorEvent ev = false) :
    ∀ ev ∈ (l.foldl
        (fun acc ia =>
          let r := processAction gw ia.1 ia.2
          ((acc.1 ++ r.1 : List Event), acc.2 + r.2)) acc).1,
      isErrorEvent ev = false := by
  induction l generalizing acc with
  | nil => simpa using hacc
  | cons x l ih =>
      simp only [List.foldl_cons]
      refine ih _ ?_
      intro ev hev
      simp at hev
      rcases hev with h | h
      · exact hacc ev h
      · exact processAction_no_error gw x.1 x.2 ev h

/-- Every `stream_patch` run takes one of three shapes: a single terminal
error event, the empty-filter completion, or the full
started/loop/doneApplied stream. -/
theorem streamPatch_shape (gw : Gateway) (raw : List JVal) :
    (∃ m, streamPatch gw raw = [.error m]) ∨
    streamPatch gw raw = [.started, .doneNoActions] ∨
    ∃ parsed, parseActions raw = .ok parsed ∧
      streamPatch gw raw =
        .started ::
          ((indexedActions raw parsed).foldl
            (fun acc ia =>
              let r := processAction gw ia.1 ia.2
              ((acc.1 ++ r.1 : List Event), acc.2 + r.2)) ([], 0)).1 ++
          [.doneApplied
            ((indexedActions raw parsed).foldl
              (fun acc ia =>
                let r := processAction gw ia.1 ia.2
                ((acc.1 ++ r.1 : List Event), acc.2 + r.2)) ([], 0)).2
            (indexedActions raw parsed).length] := by
  cases hparse : parseActions raw with
  | error e =>
      refine Or.inl ?_
      simp only [streamPatch, hparse]
      exact ⟨_, rfl⟩
  | ok parsed =>
      by_cases hempty : (indexedActions raw parsed).isEmpty
      · exact Or.inr (Or.inl (by simp [streamPatch, hparse, hempty]))
      · cases hmcp : gw.mcpInitError with
        | some e =>
            refine Or.inl ?_
            simp [streamPatch, hparse, hempty, hmcp]
        | none =>
            by_cases h1 : gw.hasListComponents
            case neg =>
              refine Or.inl ?_
              simp [streamPatch, hparse, hempty, hmcp, h1]
            by_cases h2 : gw.hasListReleaseBindings
            case neg =>
              refine Or.inl ?_
              simp [streamPatch, hparse, hempty, hmcp, h1, h2]
            by_cases h3 : gw.hasPatchReleaseBinding
            case neg =>
              refine Or.inl ?_
              simp [streamPatch, hparse, hempty, hmcp, h1, h2, h3]
            cases hbl : gw.bindingLookupError with
            | some e =>
                refine Or.inl ?_
                simp [streamPatch, hparse, hempty, hmcp, h1, h2, h3, hbl]
            | none =>
                exact Or.inr (Or.inr ⟨parsed, rfl,
                  by simp [streamPatch, hparse, hempty, hmcp, h1, h2, h3, hbl]⟩)

/-- C2 counterexample: an action whose change has the malformed resource
reference `badref` — a `MalformedReference` parse failure during the run —
does not terminate the stream with a single error event: the run emits
`patch_started`, the per-action `applying` progress event, a per-action
`patch_result` with status `failed`, and a final `patch_done`, and contains
no error event at all. -/
theorem streamPatch_parse_error_not_terminal :
    parseResourceRef "badref" = .error (.malformedReference "badref") ∧
    streamPatch happyGateway [badRefAction] =
      [.started, .progress (.num 0) "bad",
        .result (.num 0) "bad" .failed
          "Invalid resource reference: 'badref'. Expected 'Kind name'.",
        .doneApplied 0 1] ∧
    (streamPatch happyGateway [badRefAction]).all (fun e => !isErrorEvent e) = true :=
  ⟨rfl, rfl, rfl⟩

/-- C2 (amended): the four remediation parsing/application failures are
caught inside the per-action try block, not stream-terminating.  A grouping
failure (MalformedReference / UnsupportedOverrideCategory /
MalformedFieldPath) makes the action emit its progress event, any earlier
skipped results, then exactly one `failed` result carrying the message; an
`apply_change` failure (ArraySelectorMustNotBeTerminal or a shape error) in
a group likewise becomes a single `failed` result aborting that action's
remaining groups.  Moreover any run that reaches `patch_started` contains
no error event and ends with a `patch_done` event. -/
theorem streamPatch_parse_errors_caught (gw : Gateway) :
    (∀ (idx : JVal) (a : RemediationAction) (skips : List String) (e : ParseFail),
      collectGroups [] a.changes = (skips, .error e) →
      processAction gw idx a =
        (.progress idx a.description ::
          skips.map (fun kind => Event.result idx a.description .skipped
            s!"Unsupported resource kind: '{kind}'") ++
          [.result idx a.description .failed (parseFailMsg e)], 0)) ∧
    (∀ (idx : JVal) (desc : String) (g : Group) (rest : List Group)
        (info : BindingInfo) (e : PatchErr),
      (gw.bindingLookup.find? (fun p => p.1 = g.name)).map (·.2) = some info →
      buildOverrides info [] g.changes = .error e →
      processGroups gw idx desc (g :: rest) =
        ([.result idx desc .failed (patchErrMsg e)], 0)) ∧
    (∀ raw, Event.started ∈ streamPatch gw raw →
      (∀ ev ∈ streamPatch gw raw, isErrorEvent ev = false) ∧
      ∃ last, (streamPatch gw raw).getLast? = some last ∧ isDoneEvent last = true) := by
  refine ⟨?_, ?_, ?_⟩
  · intro idx a skips e hcg
    simp [processAction, hcg]
  · intro idx desc g rest info e hb hov
    simp [processGroups, hb, hov]
  · intro raw hstarted
    rcases streamPatch_shape gw raw with ⟨m, hm⟩ | hm | ⟨parsed, hparse, hm⟩
    · rw [hm] at hstarted
      simp at hstarted
    · rw [hm]
      exact ⟨by intro ev hev; simp at hev; rcases hev with h | h <;> (rw [h]; rfl),
        ⟨.doneNoActions, rfl, rfl⟩⟩
    · rw [hm]
      constructor
      · intro ev hev
        simp at hev
        rcases hev with h | h | h
        · rw [h]; rfl
        · exact streamPatch_foldl_no_error gw _ _ (by simp) ev h
        · rw [h]; rfl
      · exact ⟨_, List.getLast?_concat _, rfl⟩

/-- C2 witness: the amended theorem applied at the `badref` scenario — the
grouping failure yields the per-action failed result, and the run that
reached `patch_started` ends in `patch_done` with no error event. -/
theorem streamPatch_parse_errors_caught_witness :
    collectGroups [] [⟨"badref", "spec.workloadOverrides.replicas", "2"⟩] =
      ([], .error (.malformedReference "badref")) ∧
    processAction happyGateway (.num 0)
        ⟨"bad", none, .revised, [⟨"badref", "spec.workloadOverrides.replicas", "2"⟩]⟩ =
      (.progress (.num 0) "bad" ::
        ([] : List String).map (fun kind => Event.result (.num 0) "bad" .skipped
          s!"Unsupported resource kind: '{kind}'") ++
        [.result (.num 0) "bad" .failed
          (parseFailMsg (.malformedReference "badref"))], 0) ∧
    Event.started ∈ streamPatch happyGateway [badRefAction] ∧
    (∀ ev ∈ streamPatch happyGateway [badRefAction], isErrorEvent ev = false) ∧
    ∃ last, (streamPatch happyGateway [badRefAction]).getLast? = some last ∧
      isDoneEvent last = true := by
  have hrun : streamPatch happyGateway [badRefAction] =
      [.started, .progress (.num 0) "bad",
        .result (.num 0) "bad" .failed
          "Invalid resource reference: 'badref'. Expected 'Kind name'.",
        .doneApplied 0 1] := rfl
  have hmem : Event.started ∈ streamPatch happyGateway [badRefAction] := by
    rw [hrun]; simp
  exact ⟨rfl,
    (streamPatch_parse_errors_caught happyGateway).1 (.num 0)
      ⟨"bad", none, .revised, [⟨"badref", "spec.workloadOverrides.replicas", "2"⟩]⟩
      [] (.malformedReference "badref") rfl,
    hmem,
    ((streamPatch_parse_errors_caught happyGateway).2.2 [badRefAction] hmem).1,
    ((streamPatch_parse_errors_caught happyGateway).2.2 [badRefAction] hmem).2⟩

end RCA
